import Mathlib

set_option maxRecDepth 2000

/-
Verification of an AVR-style instruction-set simulator core.

The Rust sources are embedded shallowly:
  * machine integers (u8 / u16 / u32) become `Nat` with explicit `% 2^w`
    truncation at every point where the Rust type forces a width;
    integer overflow of `+` / `-` on unsigned types is modelled as the
    wrap-around residue (two's-complement wrapping semantics);
  * explicit `assert!`, `unwrap`, `expect`, `panic!`-like macro calls and
    `unimplemented!` are modelled as a distinguished `crash` outcome;
  * fallible operations return `Except Error` / an outcome type that keeps
    the partially-mutated state, mirroring `?`-propagation on `&mut self`.
-/

namespace Avr

/-- The error taxonomy, from `src/error.rs`. -/
inductive Error where
  | UnknownInstruction : Nat → Error
  | StackOverflow : Error
  | SegmentationFault : Nat → Error
  | RegisterDoesNotExist : Nat → Error
  | RegisterPairOdd : Nat → Error
deriving DecidableEq, Repr

/-- Pointer addressing-mode tag of indirect loads/stores (`inst::Variant`). -/
inductive Variant where
  | Normal
  | Predecrement
  | Postincrement
deriving DecidableEq, Repr

/-- The decoded instruction set, reconstructed from the constructors used in
`src/core.rs` (the `execute` match) and `src/inst/binary/mod.rs`.
Register / immediate operands are `Nat` (u8-valued), absolute targets are
`Nat` (u32-valued), relative offsets are `Int` (signed). -/
inductive Instruction where
  | Inc : Nat → Instruction
  | Dec : Nat → Instruction
  | Com : Nat → Instruction
  | Neg : Nat → Instruction
  | Push : Nat → Instruction
  | Pop : Nat → Instruction
  | Swap : Nat → Instruction
  | Subi : Nat → Nat → Instruction
  | Sbci : Nat → Nat → Instruction
  | Andi : Nat → Nat → Instruction
  | Ori : Nat → Nat → Instruction
  | Cpi : Nat → Nat → Instruction
  | Ldi : Nat → Nat → Instruction
  | Add : Nat → Nat → Instruction
  | Adc : Nat → Nat → Instruction
  | Adiw : Nat → Nat → Instruction
  | Sub : Nat → Nat → Instruction
  | Sbc : Nat → Nat → Instruction
  | Sbiw : Nat → Nat → Instruction
  | Mul : Nat → Nat → Instruction
  | And : Nat → Nat → Instruction
  | Or : Nat → Nat → Instruction
  | Eor : Nat → Nat → Instruction
  | Cpse : Nat → Nat → Instruction
  | Cp : Nat → Nat → Instruction
  | Cpc : Nat → Nat → Instruction
  | Mov : Nat → Nat → Instruction
  | Movw : Nat → Nat → Instruction
  | Nop : Instruction
  | Ret : Instruction
  | Reti : Instruction
  | Sei : Instruction
  | Cli : Instruction
  | Sbrs : Nat → Nat → Instruction
  | In : Nat → Nat → Instruction
  | Out : Nat → Nat → Instruction
  | Sbi : Nat → Nat → Instruction
  | Sbis : Nat → Nat → Instruction
  | Cbi : Nat → Nat → Instruction
  | Jmp : Nat → Instruction
  | Call : Nat → Instruction
  | Rjmp : Int → Instruction
  | Rcall : Int → Instruction
  | Brbs : Nat → Int → Instruction
  | Brbc : Nat → Int → Instruction
  | Breq : Int → Instruction
  | Brne : Int → Instruction
  | Brcs : Int → Instruction
  | Brcc : Int → Instruction
  | Brsh : Int → Instruction
  | Brlo : Int → Instruction
  | Brmi : Int → Instruction
  | Brpl : Int → Instruction
  | Brge : Int → Instruction
  | Brlt : Int → Instruction
  | Brhs : Int → Instruction
  | Brhc : Int → Instruction
  | Brts : Int → Instruction
  | Brtc : Int → Instruction
  | Brvs : Int → Instruction
  | Brvc : Int → Instruction
  | Brie : Int → Instruction
  | Brid : Int → Instruction
  | Sts : Nat → Nat → Instruction
  | Lds : Nat → Nat → Instruction
  | Lpm : Nat → Nat → Bool → Instruction
  | St : Nat → Nat → Variant → Instruction
  | Std : Nat → Nat → Nat → Instruction
  | Ld : Nat → Nat → Variant → Instruction
  | Ldd : Nat → Nat → Nat → Instruction

/-- Modelled from the spec: `Instruction::size` lives in `src/inst/mod.rs`,
which is not under `src/`.  The spec fixes it completely: every variant
yields its encoded byte length, 4 for the 32-bit encodings (absolute
jump/call and direct load/store, the instructions produced by the 32-bit
matchers) and 2 for every 16-bit encoding. -/
def Instruction.size : Instruction → Nat
  | .Jmp _ => 4
  | .Call _ => 4
  | .Sts _ _ => 4
  | .Lds _ _ => 4
  | _ => 2

/-- `CARRY_FLAG` bit mask (`src/sreg.rs`). -/
def CARRY_FLAG : Nat := 1
/-- `ZERO_FLAG` bit mask. -/
def ZERO_FLAG : Nat := 2
/-- `NEGATIVE_FLAG` bit mask. -/
def NEGATIVE_FLAG : Nat := 4
/-- `OVERFLOW_FLAG` bit mask. -/
def OVERFLOW_FLAG : Nat := 8
/-- `S_FLAG` bit mask. -/
def S_FLAG : Nat := 16
/-- `HALF_CARRY_FLAG` bit mask. -/
def HALF_CARRY_FLAG : Nat := 32
/-- `TRANSFER_FLAG` bit mask. -/
def TRANSFER_FLAG : Nat := 64
/-- `INTERRUPT_FLAG` bit mask. -/
def INTERRUPT_FLAG : Nat := 128

/-- `SReg::set` (`src/sreg.rs`): `value |= flag` or `value &= !flag`;
the `u8` complement of the mask is `255 ^^^ flag`.  The status register is
its `u8` value. -/
def sregSet (v flag : Nat) (state : Bool) : Nat :=
  if state then v ||| flag else v &&& (255 ^^^ flag)

/-- `SReg::get`: `(value & flag) == flag`. -/
def sregGet (v flag : Nat) : Bool :=
  (v &&& flag) == flag

/-- `SReg::new` starts with value 0 (`src/sreg.rs`). -/
def sregNew : Nat := 0

/-- The register file (`src/regs.rs`): an indexed collection of `u8`
register values plus the status register value.  The display name attached
to each Rust `Register` is irrelevant to execution and omitted. -/
structure RegisterFile where
  registers : List Nat
  sreg : Nat
deriving DecidableEq, Repr

/-- `SP` low register number (`src/regs.rs`). -/
def SP_LO_NUM : Nat := 32
/-- `SP` high register number (`src/regs.rs`). -/
def SP_HI_NUM : Nat := 33

/-- `RegisterFile::gpr`: value of a register, or `RegisterDoesNotExist`. -/
def RegisterFile.gpr (rf : RegisterFile) (addr : Nat) : Except Error Nat :=
  match rf.registers.get? addr with
  | some v => .ok v
  | none => .error (.RegisterDoesNotExist addr)

/-- Writing through `RegisterFile::gpr_mut`: stores a `u8` value.  Callers
have already established that the register exists. -/
def RegisterFile.setReg (rf : RegisterFile) (addr v : Nat) : RegisterFile :=
  { rf with registers := rf.registers.set addr (v % 256) }

/-- `RegisterFile::gpr_pair_val`: 16-bit value `(hi << 8) | lo` of an even
register pair, `RegisterPairOdd` on an odd index. -/
def RegisterFile.gprPairVal (rf : RegisterFile) (addr : Nat) : Except Error Nat :=
  if addr % 2 ≠ 0 then .error (.RegisterPairOdd addr)
  else do
    let lo ← rf.gpr addr
    let hi ← rf.gpr (addr + 1)
    pure ((hi <<< 8) ||| lo)

/-- `RegisterFile::set_gpr_pair`: writes `val & 0xff` to `low` and
`(val & 0xff00) >> 8` to `low + 1`; the Rust code unwraps `gpr_mut`, so a
missing register is a crash, which callers rule out by prior reads. -/
def RegisterFile.setGprPair (rf : RegisterFile) (low val : Nat) : RegisterFile :=
  (rf.setReg low (val &&& 0xff)).setReg (low + 1) ((val &&& 0xff00) >>> 8)

/-- Modelled from the spec: `mem::Space` lives in `src/mem.rs`, which is not
under `src/`.  The spec describes it as a bounds-checked, byte-addressable
linear array where every out-of-range access is a reported error
(`SegmentationFault` carrying the address), never undefined behaviour.
A space is its list of byte values. -/
def Space := List Nat

/-- Modelled from the spec: bounds-checked single-byte read. -/
def Space.getU8 (m : Space) (addr : Nat) : Except Error Nat :=
  match List.get? m addr with
  | some v => .ok v
  | none => .error (.SegmentationFault addr)

/-- Modelled from the spec: bounds-checked single-byte write of a `u8`. -/
def Space.setU8 (m : Space) (addr v : Nat) : Except Error Space :=
  if addr < m.length then .ok (m.set addr (v % 256))
  else .error (.SegmentationFault addr)

/-- Modelled from the spec: 16-bit read of the bytes at `addr` and
`addr + 1`, low byte first (the word order used consistently by
`set_u16`/`get_u16` round trips in `core.rs`). -/
def Space.getU16 (m : Space) (addr : Nat) : Except Error Nat := do
  let lo ← m.getU8 addr
  let hi ← m.getU8 (addr + 1)
  pure ((hi <<< 8) ||| lo)

/-- Modelled from the spec: 16-bit write, low byte at `addr`, high byte at
`addr + 1`.  When the second byte is out of range the first byte has
already been stored, so the partially-mutated space is returned next to
the error. -/
def Space.setU16 (m : Space) (addr v : Nat) : Space × Option Error :=
  match m.setU8 addr (v &&& 0xff) with
  | .error e => (m, some e)
  | .ok m1 =>
    match m1.setU8 (addr + 1) ((v >>> 8) &&& 0xff) with
    | .error e => (m1, some e)
    | .ok m2 => (m2, none)

/-- The AVR CPU state (`Core` in `src/core.rs`).  The chip-specific
`io_ports` list is irrelevant to every instruction handler and omitted. -/
structure Core where
  register_file : RegisterFile
  program_space : Space
  memory : Space
  pc : Nat
  size_of_next_instruction : Nat

/-- Outcome of a state-mutating operation: normal return, an `Error`
propagated by `?` (the mutations made before the error persist in the
returned state, as they do on the Rust `&mut self`), or a crash
(an `assert!`/`unwrap`/`unimplemented!` firing, which aborts the
simulator process). -/
inductive HRes where
  | ok : Core → HRes
  | err : Error → Core → HRes
  | crash : HRes

/-- Every state contained in an outcome satisfies `P`; a crash leaves no
state behind. -/
def HRes.All (P : Core → Prop) : HRes → Prop
  | .ok c => P c
  | .err _ c => P c
  | .crash => True

/-- `SRAM_IO_OFFSET` (`src/core.rs`): IO space is mapped at 0x20. -/
def SRAM_IO_OFFSET : Nat := 0x20

/-- `PTR_SIZE` (`src/core.rs`). -/
def PTR_SIZE : Nat := 2

/-- Wrapping `u16` subtraction `a - b` (two's-complement wrap). -/
def wsub16 (a b : Nat) : Nat := (a % 65536 + 65536 - b % 65536) % 65536

/-- Reinterpret a `u16` bit pattern as an `i16` value. -/
def toI16 (v : Nat) : Int :=
  if v % 65536 < 32768 then (v % 65536 : Nat) else (v % 65536 : Nat) - 65536

/-- `update_overflow_flag`, acting on the sreg value: set iff `val > 0xff`. -/
def updOverflow (val v : Nat) : Nat :=
  sregSet v OVERFLOW_FLAG (decide (val > 0xff))

/-- `update_carry_flag`: set iff bit 8 of `val` is set. -/
def updCarry (val v : Nat) : Nat :=
  sregSet v CARRY_FLAG (decide ((val &&& 0b100000000) > 0))

/-- `update_half_carry_flag`: set iff bit 3 of `val` is set. -/
def updHalfCarry (val v : Nat) : Nat :=
  sregSet v HALF_CARRY_FLAG (decide ((val &&& 0b1000) > 0))

/-- `update_negative_flag`: Negative iff bit 7 of `val` is set, and Sign is
always written as the complement of Negative. -/
def updNegative (val v : Nat) : Nat :=
  sregSet (sregSet v NEGATIVE_FLAG (decide ((val &&& 0b10000000) > 0)))
    S_FLAG (!(decide ((val &&& 0b10000000) > 0)))

/-- `update_zero_flag`: set iff `val == 0` — note: the *untruncated* value. -/
def updZero (val v : Nat) : Nat :=
  sregSet v ZERO_FLAG (decide (val = 0))

/-- `update_sreg_arithmetic`: overflow, carry, half-carry, negative, zero,
in the order the Rust code applies them. -/
def updSregArith (val v : Nat) : Nat :=
  updZero val (updNegative val (updHalfCarry val (updCarry val (updOverflow val v))))

/-- `update_sreg_cp`: overflow, negative and zero from the (wrapping)
difference, carry from a magnitude comparison of the operands
reinterpreted as `i16`. -/
def updSregCp (rdVal rrVal v : Nat) : Nat :=
  let val := wsub16 rdVal rrVal
  sregSet (updZero val (updNegative val (updOverflow val v)))
    CARRY_FLAG (decide ((toI16 rrVal).natAbs > (toI16 rdVal).natAbs))

/-- Replace the sreg value of a core. -/
def Core.withSreg (c : Core) (v : Nat) : Core :=
  { c with register_file := { c.register_file with sreg := v } }

/-- `Core::update_sreg_arithmetic`. -/
def Core.updateSregArithmetic (c : Core) (val : Nat) : Core :=
  c.withSreg (updSregArith val c.register_file.sreg)

/-- `Core::do_rd`: read `rd` (an unwrap, so a missing register crashes),
apply the pure `u8` transform, store the result back. -/
def doRd (c : Core) (rd : Nat) (f : Nat → Nat) : Option Core :=
  match c.register_file.gpr rd with
  | .error _ => none
  | .ok v => some { c with register_file := c.register_file.setReg rd (f v) }

/-- `Core::do_rdrr`: read `rr` then `rd` as `u16`-widened values (unwraps),
store `f rd rr` truncated to `u8` in `rd`, and return the untruncated
result. -/
def doRdrr (c : Core) (rd rr : Nat) (f : Nat → Nat → Nat) : Option (Nat × Core) :=
  match c.register_file.gpr rr with
  | .error _ => none
  | .ok rrv =>
    match c.register_file.gpr rd with
    | .error _ => none
    | .ok rdv =>
      let val := f rdv rrv
      some (val, { c with register_file := c.register_file.setReg rd (val % 256) })

/-- `Core::do_rdi`: like `do_rdrr` with only the destination register. -/
def doRdi (c : Core) (rd : Nat) (f : Nat → Nat) : Option (Nat × Core) :=
  match c.register_file.gpr rd with
  | .error _ => none
  | .ok rdv =>
    let val := f rdv
    some (val, { c with register_file := c.register_file.setReg rd (val % 256) })

/-- `Core::do_rdrr16`: 16-bit register-pair transform; asserts both indices
even (crash otherwise) and unwraps all four byte registers. -/
def doRdrr16 (c : Core) (rd rr : Nat) (f : Nat → Nat → Nat) : Option Core :=
  if rd % 2 = 0 ∧ rr % 2 = 0 then
    match c.register_file.gpr rr, c.register_file.gpr (rr + 1) with
    | .ok rrLo, .ok rrHi =>
      match c.register_file.gpr rd, c.register_file.gpr (rd + 1) with
      | .ok rdLo, .ok rdHi =>
        let val := f ((rdHi <<< 8) ||| rdLo) ((rrHi <<< 8) ||| rrLo)
        let rf := (c.register_file.setReg rd (val &&& 0xff)).setReg (rd + 1) ((val &&& 0xff00) >>> 8)
        some { c with register_file := rf }
      | _, _ => none
    | _, _ => none
  else none

/-- `Core::do_io_ab`: read-modify-write of the IO-window byte at
`SRAM_IO_OFFSET + a`; `f` may also mutate the core (used by `sbis`). -/
def doIoAb (c : Core) (a b : Nat) (f : Core → Nat → Nat → Core × Nat) : HRes :=
  let addr := SRAM_IO_OFFSET + a
  match c.memory.getU8 addr with
  | .error e => .err e c
  | .ok cur =>
    let p := f c cur b
    match p.1.memory.setU8 addr p.2 with
    | .error e => .err e p.1
    | .ok m => .ok { p.1 with memory := m }

/-- `Core::rjmp`: `pc = (pc as i32 + k as i32) as u32`, i.e. the wrap-around
residue of `pc + k` modulo `2^32`. -/
def rjmpH (k : Int) (c : Core) : HRes :=
  .ok { c with pc := (((c.pc : Int) + k).emod 4294967296).toNat }

/-- `Core::do_sreg_branch`: test a predicate of the status register and
relative-jump when it holds. -/
def doSregBranch (c : Core) (k : Int) (f : Nat → Bool) : HRes :=
  if f c.register_file.sreg then rjmpH k c else .ok c

/-- `Core::handle_ld_st_variant`: adjust the pointer pair after an indirect
access — nothing for `Normal`, `-2` for `Predecrement`, `+2` for
`Postincrement` (the unwrap on the pair read is a crash). -/
def handleLdStVariant (c : Core) (ptr : Nat) (variant : Variant) : Option Core :=
  match c.register_file.gprPairVal ptr with
  | .error _ => none
  | .ok val =>
    let val' := match variant with
      | .Normal => val
      | .Predecrement => wsub16 val PTR_SIZE
      | .Postincrement => (val + PTR_SIZE) % 65536
    some { c with register_file := c.register_file.setGprPair ptr val' }

/-- Lift the crash-only `Option` outcomes of the `do_*` combinators. -/
def oRes : Option Core → HRes
  | none => .crash
  | some c => .ok c

/-- `RegisterFile::sreg_flag`. -/
def RegisterFile.sregFlag (rf : RegisterFile) (mask : Nat) : Bool :=
  (rf.sreg &&& mask) == mask

/-- `RegisterFile::sreg_flag_set` on a core. -/
def Core.sregFlagSet (c : Core) (mask : Nat) : Core :=
  c.withSreg (c.register_file.sreg ||| mask)

/-- `RegisterFile::sreg_flag_clear` on a core. -/
def Core.sregFlagClear (c : Core) (mask : Nat) : Core :=
  c.withSreg (c.register_file.sreg &&& (255 ^^^ mask))

/-- `Core::add`: widened sum, then the arithmetic flag profile. -/
def Core.add (c : Core) (lhs rhs : Nat) : HRes :=
  match doRdrr c lhs rhs (fun a b => (a + b) % 65536) with
  | none => .crash
  | some (sum, c1) => .ok (c1.updateSregArithmetic sum)

/-- `Core::adc`: like `add` with the current carry as a 0/1 summand. -/
def Core.adc (c : Core) (lhs rhs : Nat) : HRes :=
  let constant := if c.register_file.sregFlag CARRY_FLAG then 1 else 0
  match doRdrr c lhs rhs (fun a b => (a + b + constant) % 65536) with
  | none => .crash
  | some (sum, c1) => .ok (c1.updateSregArithmetic sum)

/-- `Core::adiw`. -/
def Core.adiw (c : Core) (rd imm : Nat) : HRes :=
  match c.register_file.gprPairVal rd with
  | .error e => .err e c
  | .ok pv =>
    let val := (pv + imm) % 65536
    .ok (({ c with register_file := c.register_file.setGprPair rd val }).updateSregArithmetic val)

/-- `Core::sub`. -/
def Core.sub (c : Core) (lhs rhs : Nat) : HRes :=
  match doRdrr c lhs rhs (fun a b => wsub16 a b) with
  | none => .crash
  | some (diff, c1) => .ok (c1.updateSregArithmetic diff)

/-- `Core::sbc`. -/
def Core.sbc (c : Core) (lhs rhs : Nat) : HRes :=
  let constant := if c.register_file.sregFlag CARRY_FLAG then 1 else 0
  match doRdrr c lhs rhs (fun a b => wsub16 (wsub16 a b) constant) with
  | none => .crash
  | some (diff, c1) => .ok (c1.updateSregArithmetic diff)

/-- `Core::subi`. -/
def Core.subi (c : Core) (rd imm : Nat) : HRes :=
  match doRdi c rd (fun d => wsub16 d imm) with
  | none => .crash
  | some (diff, c1) => .ok (c1.updateSregArithmetic diff)

/-- `Core::sbci`. -/
def Core.sbci (c : Core) (rd imm : Nat) : HRes :=
  let constant := if c.register_file.sregFlag CARRY_FLAG then 1 else 0
  match doRdi c rd (fun d => wsub16 (wsub16 d imm) constant) with
  | none => .crash
  | some (diff, c1) => .ok (c1.updateSregArithmetic diff)

/-- `Core::sbiw`. -/
def Core.sbiw (c : Core) (rd imm : Nat) : HRes :=
  match c.register_file.gprPairVal rd with
  | .error e => .err e c
  | .ok pv =>
    let val := wsub16 pv imm
    .ok (({ c with register_file := c.register_file.setGprPair rd val }).updateSregArithmetic val)

/-- `Core::mul` panics unconditionally (distrusted implementation). -/
def Core.mul (_c : Core) (_rd _rr : Nat) : HRes := .crash

/-- `Core::and`: bitwise and, then Zero/Negative updates and an explicit
Overflow clear. -/
def Core.and (c : Core) (lhs rhs : Nat) : HRes :=
  match doRdrr c lhs rhs (fun a b => a &&& b) with
  | none => .crash
  | some (result, c1) =>
    .ok ((c1.withSreg (updNegative result (updZero result c1.register_file.sreg))).sregFlagClear
      OVERFLOW_FLAG)

/-- `Core::andi` (no flag updates in the source). -/
def Core.andi (c : Core) (rd imm : Nat) : HRes :=
  match doRdi c rd (fun d => d &&& imm) with
  | none => .crash
  | some (_, c1) => .ok c1

/-- `Core::or`: bitwise or; no flag updates in the source. -/
def Core.or (c : Core) (lhs rhs : Nat) : HRes :=
  match doRdrr c lhs rhs (fun a b => a ||| b) with
  | none => .crash
  | some (_, c1) => .ok c1

/-- `Core::ori` (note the source erroneously uses `&`; no flag updates). -/
def Core.ori (c : Core) (rd imm : Nat) : HRes :=
  match doRdi c rd (fun d => d &&& imm) with
  | none => .crash
  | some (_, c1) => .ok c1

/-- `Core::eor`: bitwise xor; no flag updates in the source. -/
def Core.eor (c : Core) (lhs rhs : Nat) : HRes :=
  match doRdrr c lhs rhs (fun a b => a ^^^ b) with
  | none => .crash
  | some (_, c1) => .ok c1

/-- `Core::com`: `0xff - a`. -/
def Core.com (c : Core) (rd : Nat) : HRes :=
  oRes (doRd c rd (fun a => 255 - a))

/-- `Core::neg`: two's-complement negation of the `u8`. -/
def Core.neg (c : Core) (rd : Nat) : HRes :=
  oRes (doRd c rd (fun a => (256 - a % 256) % 256))

/-- `Core::mov`. -/
def Core.mov (c : Core) (lhs rhs : Nat) : HRes :=
  match doRdrr c lhs rhs (fun _ b => b) with
  | none => .crash
  | some (_, c1) => .ok c1

/-- `Core::movw`. -/
def Core.movw (c : Core) (lhs rhs : Nat) : HRes :=
  oRes (doRdrr16 c lhs rhs (fun _ b => b))

/-- `Core::lsl`. -/
def Core.lsl (c : Core) (rd : Nat) : HRes :=
  oRes (doRd c rd (fun d => (d <<< 1) % 256))

/-- `Core::lsr`. -/
def Core.lsr (c : Core) (rd : Nat) : HRes :=
  oRes (doRd c rd (fun d => d >>> 1))

/-- `Core::inc`. -/
def Core.inc (c : Core) (rd : Nat) : HRes :=
  oRes (doRd c rd (fun d => (d + 1) % 256))

/-- `Core::dec`. -/
def Core.dec (c : Core) (rd : Nat) : HRes :=
  oRes (doRd c rd (fun d => (d % 256 + 255) % 256))

/-- `Core::push`: asserts a non-zero stack-pointer *low byte*, writes the
register byte to data memory at the pre-decrement position `sp`, then
decrements the low byte.  Only `SP_LO_NUM` is touched. -/
def Core.push (c : Core) (rd : Nat) : HRes :=
  match c.register_file.gpr rd with
  | .error e => .err e c
  | .ok rdVal =>
    match c.register_file.gpr SP_LO_NUM with
    | .error e => .err e c
    | .ok sp =>
      if sp = 0 then .crash
      else
        match c.memory.setU8 sp rdVal with
        | .error e => .err e c
        | .ok m =>
          .ok { c with memory := m,
                       register_file := c.register_file.setReg SP_LO_NUM (sp - 1) }

/-- `Core::pop`: increments the stack-pointer low byte, asserts it non-zero,
then — exactly as the source does — *writes* the register's value to data
memory at the incremented position (it never reads memory into the
register). -/
def Core.pop (c : Core) (rd : Nat) : HRes :=
  match c.register_file.gpr rd with
  | .error e => .err e c
  | .ok rdVal =>
    match c.register_file.gpr SP_LO_NUM with
    | .error e => .err e c
    | .ok sp =>
      let sp1 := (sp + 1) % 256
      let c1 := { c with register_file := c.register_file.setReg SP_LO_NUM sp1 }
      if sp1 = 0 then .crash
      else
        match c1.memory.setU8 sp1 rdVal with
        | .error e => .err e c1
        | .ok m => .ok { c1 with memory := m }

/-- `Core::swap`. -/
def Core.swap (c : Core) (rd : Nat) : HRes :=
  oRes (doRd c rd (fun d => ((d &&& 0x0f) <<< 4) ||| ((d &&& 0xf0) >>> 4)))

/-- `Core::cp`: compare without storing, via `update_sreg_cp`. -/
def Core.cp (c : Core) (rd rr : Nat) : HRes :=
  match c.register_file.gpr rd with
  | .error e => .err e c
  | .ok rdVal =>
    match c.register_file.gpr rr with
    | .error e => .err e c
    | .ok rrVal => .ok (c.withSreg (updSregCp rdVal rrVal c.register_file.sreg))

/-- `Core::cpc`: compare with carry; the source routes the flags through
`update_sreg_arithmetic`, not `update_sreg_cp`. -/
def Core.cpc (c : Core) (rd rr : Nat) : HRes :=
  match c.register_file.gpr rd with
  | .error e => .err e c
  | .ok rdVal =>
    match c.register_file.gpr rr with
    | .error e => .err e c
    | .ok rrVal =>
      let cst := if sregGet c.register_file.sreg CARRY_FLAG then 1 else 0
      .ok (c.updateSregArithmetic (wsub16 (wsub16 rdVal rrVal) cst))

/-- `Core::cpse`: skip the next instruction (whose size was recorded at
fetch time) when the two registers are equal. -/
def Core.cpse (c : Core) (rd rr : Nat) : HRes :=
  match c.register_file.gpr rd with
  | .error e => .err e c
  | .ok rdVal =>
    match c.register_file.gpr rr with
    | .error e => .err e c
    | .ok rrVal =>
      if rdVal = rrVal then
        .ok { c with pc := (c.pc + c.size_of_next_instruction) % 4294967296 }
      else .ok c

/-- `Core::cpi` is a stub: it does nothing. -/
def Core.cpi (c : Core) (_rd _imm : Nat) : HRes := .ok c

/-- `Core::ldi`. -/
def Core.ldi (c : Core) (rd imm : Nat) : HRes :=
  oRes (doRd c rd (fun _ => imm))

/-- `Core::jmp`. -/
def Core.jmp (c : Core) (k : Nat) : HRes := .ok { c with pc := k }

/-- `Core::call`: pushes the post-advance PC (truncated to `u16`) at
`SP - 1` via a 16-bit store, decrements the full 16-bit SP pair by 2, and
jumps to `k`. -/
def Core.call (c : Core) (k : Nat) : HRes :=
  let returnAddr := c.pc % 65536
  match c.register_file.gprPairVal SP_LO_NUM with
  | .error _ => .crash
  | .ok sp =>
    let p := c.memory.setU16 (wsub16 sp 1) returnAddr
    match p.2 with
    | some e => .err e { c with memory := p.1 }
    | none =>
      .ok { c with memory := p.1,
                   register_file := c.register_file.setGprPair SP_LO_NUM (wsub16 sp 2),
                   pc := k }

/-- `Core::rcall` is a stub: it does nothing. -/
def Core.rcall (c : Core) (_k : Int) : HRes := .ok c

/-- `Core::ret`: increments the full 16-bit SP pair by 2, reads the return
address at `SP - 1` after incrementing, and jumps to it. -/
def Core.ret (c : Core) : HRes :=
  match c.register_file.gprPairVal SP_LO_NUM with
  | .error _ => .crash
  | .ok sp =>
    let sp2 := (sp + 2) % 65536
    match c.memory.getU16 (wsub16 sp2 1) with
    | .error e => .err e c
    | .ok returnAddr =>
      .ok { c with register_file := c.register_file.setGprPair SP_LO_NUM sp2,
                   pc := returnAddr }

/-- `Core::reti`: `ret`, then set the interrupt-enable flag. -/
def Core.reti (c : Core) : HRes :=
  match c.ret with
  | .ok c1 => .ok (c1.sregFlagSet INTERRUPT_FLAG)
  | r => r

/-- `Core::sei`. -/
def Core.sei (c : Core) : HRes := .ok (c.sregFlagSet INTERRUPT_FLAG)

/-- `Core::cli`. -/
def Core.cli (c : Core) : HRes := .ok (c.sregFlagClear INTERRUPT_FLAG)

/-- `Core::brne`. -/
def Core.brne (c : Core) (k : Int) : HRes :=
  doSregBranch c k (fun s => !sregGet s ZERO_FLAG)

/-- `Core::breq`. -/
def Core.breq (c : Core) (k : Int) : HRes :=
  doSregBranch c k (fun s => sregGet s ZERO_FLAG)

/-- `Core::brbs` is `unimplemented!`. -/
def Core.brbs (_c : Core) (_flag : Nat) (_k : Int) : HRes := .crash

/-- `Core::brbc` is `unimplemented!`. -/
def Core.brbc (_c : Core) (_flag : Nat) (_k : Int) : HRes := .crash

/-- `Core::brcs`. -/
def Core.brcs (c : Core) (k : Int) : HRes :=
  doSregBranch c k (fun s => sregGet s CARRY_FLAG)

/-- `Core::brcc`. -/
def Core.brcc (c : Core) (k : Int) : HRes :=
  doSregBranch c k (fun s => !sregGet s CARRY_FLAG)

/-- `Core::brsh` delegates to `brcc`. -/
def Core.brsh (c : Core) (k : Int) : HRes := c.brcc k

/-- `Core::brlo` delegates to `brcs`. -/
def Core.brlo (c : Core) (k : Int) : HRes := c.brcs k

/-- `Core::brmi`. -/
def Core.brmi (c : Core) (k : Int) : HRes :=
  doSregBranch c k (fun s => sregGet s NEGATIVE_FLAG)

/-- `Core::brpl`. -/
def Core.brpl (c : Core) (k : Int) : HRes :=
  doSregBranch c k (fun s => !sregGet s NEGATIVE_FLAG)

/-- `Core::brge`. -/
def Core.brge (c : Core) (k : Int) : HRes :=
  doSregBranch c k (fun s => !sregGet s S_FLAG)

/-- `Core::brlt`. -/
def Core.brlt (c : Core) (k : Int) : HRes :=
  doSregBranch c k (fun s => sregGet s S_FLAG)

/-- `Core::brhs`. -/
def Core.brhs (c : Core) (k : Int) : HRes :=
  doSregBranch c k (fun s => sregGet s HALF_CARRY_FLAG)

/-- `Core::brhc`. -/
def Core.brhc (c : Core) (k : Int) : HRes :=
  doSregBranch c k (fun s => !sregGet s HALF_CARRY_FLAG)

/-- `Core::brts`. -/
def Core.brts (c : Core) (k : Int) : HRes :=
  doSregBranch c k (fun s => sregGet s TRANSFER_FLAG)

/-- `Core::brtc`. -/
def Core.brtc (c : Core) (k : Int) : HRes :=
  doSregBranch c k (fun s => !sregGet s TRANSFER_FLAG)

/-- `Core::brvs`. -/
def Core.brvs (c : Core) (k : Int) : HRes :=
  doSregBranch c k (fun s => sregGet s OVERFLOW_FLAG)

/-- `Core::brvc`. -/
def Core.brvc (c : Core) (k : Int) : HRes :=
  doSregBranch c k (fun s => !sregGet s OVERFLOW_FLAG)

/-- `Core::brie`. -/
def Core.brie (c : Core) (k : Int) : HRes :=
  doSregBranch c k (fun s => sregGet s INTERRUPT_FLAG)

/-- `Core::brid`. -/
def Core.brid (c : Core) (k : Int) : HRes :=
  doSregBranch c k (fun s => !sregGet s INTERRUPT_FLAG)

/-- `Core::sbrs`: skip when bit `b` of register `r` is set. -/
def Core.sbrs (c : Core) (r b : Nat) : HRes :=
  match c.register_file.gpr r with
  | .error e => .err e c
  | .ok value =>
    if value &&& (1 <<< b) ≠ 0 then
      .ok { c with pc := (c.pc + c.size_of_next_instruction) % 4294967296 }
    else .ok c

/-- `Core::sts`: the register read is an `expect` (crash on a missing
register), the memory write propagates its error. -/
def Core.sts (c : Core) (rd k : Nat) : HRes :=
  match c.register_file.gpr rd with
  | .error _ => .crash
  | .ok value =>
    match c.memory.setU8 k value with
    | .error e => .err e c
    | .ok m => .ok { c with memory := m }

/-- `Core::lds`: memory read propagates its error, the register write is an
`expect` (crash on a missing register). -/
def Core.lds (c : Core) (rd k : Nat) : HRes :=
  match c.memory.getU8 k with
  | .error e => .err e c
  | .ok value =>
    match c.register_file.gpr rd with
    | .error _ => .crash
    | .ok _ => .ok { c with register_file := c.register_file.setReg rd value }

/-- `Core::lpm`: asserts the pointer register is 30 (Z), loads a byte of
program space at Z, optionally post-incrementing Z. -/
def Core.lpm (c : Core) (rd rz : Nat) (postinc : Bool) : HRes :=
  if rz ≠ 30 then .crash
  else
    match c.register_file.gprPairVal rz with
    | .error e => .err e c
    | .ok z =>
      match c.program_space.getU8 z with
      | .error e => .err e c
      | .ok value =>
        match c.register_file.gpr rd with
        | .error e => .err e c
        | .ok _ =>
          let c1 := { c with register_file := c.register_file.setReg rd value }
          if postinc then
            .ok { c1 with register_file := c1.register_file.setGprPair rz ((z + 1) % 65536) }
          else .ok c1

/-- `Core::nop`. -/
def Core.nop (c : Core) : HRes := .ok c

/-- `Core::_in`: asserts a 6-bit IO address, reads the IO-window byte into
the register (the register write is an unwrap). -/
def Core.inH (c : Core) (rd a : Nat) : HRes :=
  if a > 0b111111 then .crash
  else
    match c.memory.getU8 (SRAM_IO_OFFSET + a) with
    | .error e => .err e c
    | .ok ioVal =>
      match c.register_file.gpr rd with
      | .error _ => .crash
      | .ok _ => .ok { c with register_file := c.register_file.setReg rd ioVal }

/-- `Core::out`: asserts a 6-bit IO address, writes the register byte to
the IO window. -/
def Core.out (c : Core) (a rd : Nat) : HRes :=
  if a > 0b111111 then .crash
  else
    match c.register_file.gpr rd with
    | .error e => .err e c
    | .ok regVal =>
      match c.memory.setU8 (SRAM_IO_OFFSET + a) regVal with
      | .error e => .err e c
      | .ok m => .ok { c with memory := m }

/-- `Core::sbi`: set bit `b` of the IO byte. -/
def Core.sbi (c : Core) (a b : Nat) : HRes :=
  doIoAb c a b (fun s cur bb => (s, cur ||| ((1 <<< bb) % 256)))

/-- `Core::sbis`: the source compares the *whole IO byte* against the bit
index `b` and skips when they are equal, writing the byte back
unchanged. -/
def Core.sbis (c : Core) (a b : Nat) : HRes :=
  doIoAb c a b (fun s cur bb =>
    (if cur = bb then
      { s with pc := (s.pc + s.size_of_next_instruction) % 4294967296 }
     else s, cur))

/-- `Core::cbi`: clear bit `b` of the IO byte. -/
def Core.cbi (c : Core) (a b : Nat) : HRes :=
  doIoAb c a b (fun s cur bb => (s, cur &&& (255 ^^^ ((1 <<< bb) % 256))))

/-- `Core::st`: store the register byte at the address in the pointer
pair, then apply the addressing-mode adjustment. -/
def Core.st (c : Core) (ptr reg : Nat) (variant : Variant) : HRes :=
  match c.register_file.gprPairVal ptr with
  | .error e => .err e c
  | .ok addr =>
    match c.register_file.gpr reg with
    | .error e => .err e c
    | .ok val =>
      match c.memory.setU8 addr val with
      | .error e => .err e c
      | .ok m =>
        match handleLdStVariant { c with memory := m } ptr variant with
        | none => .crash
        | some c1 => .ok c1

/-- `Core::ld`: load from the address in the pointer pair into the
register, then apply the addressing-mode adjustment. -/
def Core.ld (c : Core) (reg ptr : Nat) (variant : Variant) : HRes :=
  match c.register_file.gprPairVal ptr with
  | .error e => .err e c
  | .ok addr =>
    match c.memory.getU8 addr with
    | .error e => .err e c
    | .ok val =>
      match c.register_file.gpr reg with
      | .error e => .err e c
      | .ok _ =>
        match handleLdStVariant { c with register_file := c.register_file.setReg reg val } ptr variant with
        | none => .crash
        | some c1 => .ok c1

/-- `Core::std`: displacement store; never mutates the pointer. -/
def Core.stdH (c : Core) (ptr imm reg : Nat) : HRes :=
  match c.register_file.gprPairVal ptr with
  | .error e => .err e c
  | .ok pv =>
    match c.register_file.gpr reg with
    | .error e => .err e c
    | .ok val =>
      match c.memory.setU8 ((pv + imm) % 65536) val with
      | .error e => .err e c
      | .ok m => .ok { c with memory := m }

/-- `Core::ldd`: displacement load; never mutates the pointer. -/
def Core.ldd (c : Core) (reg ptr imm : Nat) : HRes :=
  match c.register_file.gprPairVal ptr with
  | .error e => .err e c
  | .ok pv =>
    match c.memory.getU8 ((pv + imm) % 65536) with
    | .error e => .err e c
    | .ok val =>
      match c.register_file.gpr reg with
      | .error e => .err e c
      | .ok _ => .ok { c with register_file := c.register_file.setReg reg val }

/-- Dispatch an already-fetched instruction (`Core::execute`, second half):
the per-variant handler calls, applied to a core whose PC has already been
advanced. -/
def Core.dispatch (c : Core) (inst : Instruction) : HRes :=
  match inst with
  | .Inc rd => c.inc rd
  | .Dec rd => c.dec rd
  | .Com rd => c.com rd
  | .Neg rd => c.neg rd
  | .Push rd => c.push rd
  | .Pop rd => c.pop rd
  | .Swap rd => c.swap rd
  | .Subi rd k => c.subi rd k
  | .Sbci rd k => c.sbci rd k
  | .Andi rd k => c.andi rd k
  | .Ori rd k => c.ori rd k
  | .Cpi rd k => c.cpi rd k
  | .Ldi rd k => c.ldi rd k
  | .Add rd rr => c.add rd rr
  | .Adc rd rr => c.adc rd rr
  | .Adiw rd k => c.adiw rd k
  | .Sub rd rr => c.sub rd rr
  | .Sbc rd rr => c.sbc rd rr
  | .Sbiw rd k => c.sbiw rd k
  | .Mul rd rr => c.mul rd rr
  | .And rd rr => c.and rd rr
  | .Or rd rr => c.or rd rr
  | .Eor rd rr => c.eor rd rr
  | .Cpse rd rr => c.cpse rd rr
  | .Cp rd rr => c.cp rd rr
  | .Cpc rd rr => c.cpc rd rr
  | .Mov rd rr => c.mov rd rr
  | .Movw rd rr => c.movw rd rr
  | .Nop => c.nop
  | .Ret => c.ret
  | .Reti => c.reti
  | .Sei => c.sei
  | .Cli => c.cli
  | .Sbrs r b => c.sbrs r b
  | .In rd a => c.inH rd a
  | .Out a rd => c.out a rd
  | .Sbi a b => c.sbi a b
  | .Sbis a b => c.sbis a b
  | .Cbi a b => c.cbi a b
  | .Jmp k => c.jmp k
  | .Call k => c.call k
  | .Rjmp k => rjmpH k c
  | .Rcall k => c.rcall k
  | .Brbs s k => c.brbs s k
  | .Brbc s k => c.brbc s k
  | .Breq k => c.breq k
  | .Brne k => c.brne k
  | .Brcs k => c.brcs k
  | .Brcc k => c.brcc k
  | .Brsh k => c.brsh k
  | .Brlo k => c.brlo k
  | .Brmi k => c.brmi k
  | .Brpl k => c.brpl k
  | .Brge k => c.brge k
  | .Brlt k => c.brlt k
  | .Brhs k => c.brhs k
  | .Brhc k => c.brhc k
  | .Brts k => c.brts k
  | .Brtc k => c.brtc k
  | .Brvs k => c.brvs k
  | .Brvc k => c.brvc k
  | .Brie k => c.brie k
  | .Brid k => c.brid k
  | .Sts rd k => c.sts rd k
  | .Lds rd k => c.lds rd k
  | .Lpm rd z postinc => c.lpm rd z postinc
  | .St ptr reg variant => c.st ptr reg variant
  | .Std ptr imm reg => c.stdH ptr imm reg
  | .Ld reg ptr variant => c.ld reg ptr variant
  | .Ldd reg ptr imm => c.ldd reg ptr imm

/-- `Core::execute`: advance PC by the size of the just-fetched instruction
*first*, then dispatch to the handler. -/
def Core.execute (c : Core) (inst : Instruction) : HRes :=
  Core.dispatch { c with pc := (c.pc + inst.size) % 4294967296 } inst

/-- Modelled from the spec: `math::sign_extend` lives in `src/math.rs`,
which is not under `src/`.  The spec fixes the intent: relative branch
offsets are sign-extended; extending an (already left-shifted) pattern
whose sign bit is `bit` interprets that bit as the two's-complement
sign. -/
def signExtend (v bit : Nat) : Int :=
  if v.testBit bit then (v % 2 ^ (bit + 1) : Nat) - (2 ^ (bit + 1) : Nat)
  else (v % 2 ^ (bit + 1) : Nat)

/-- `try_read_rd` (`src/inst/binary/mod.rs`). -/
def tryReadRd (bits : Nat) : Option Instruction :=
  let opcode := ((bits &&& 0b1111111000000000) >>> 5) ||| (bits &&& 0b0000000000001111)
  let rd := (bits &&& 0b0000000111110000) >>> 4
  match opcode with
  | 0b10010100011 => some (.Inc rd)
  | 0b10010101010 => some (.Dec rd)
  | 0b10010100000 => some (.Com rd)
  | 0b10010100001 => some (.Neg rd)
  | 0b10010011111 => some (.Push rd)
  | 0b10010001111 => some (.Pop rd)
  | 0b10010100010 => some (.Swap rd)
  | _ => none

/-- `try_read_rdk`: register+immediate family; the raw 4-bit register field
is biased by +16. -/
def tryReadRdk (bits : Nat) : Option Instruction :=
  let opcode := (bits &&& 0b1111000000000000) >>> 12
  let rd := ((bits &&& 0b0000000011110000) >>> 4) + 16
  let k := ((bits &&& 0b0000111100000000) >>> 4) ||| (bits &&& 0b0000000000001111)
  match opcode with
  | 0b0101 => some (.Subi rd k)
  | 0b0100 => some (.Sbci rd k)
  | 0b0111 => some (.Andi rd k)
  | 0b0110 => some (.Ori rd k)
  | 0b0011 => some (.Cpi rd k)
  | 0b1110 => some (.Ldi rd k)
  | _ => none

/-- `try_read_rdrr`: two-register family. -/
def tryReadRdrr (bits : Nat) : Option Instruction :=
  let opcode := (bits &&& 0b1111110000000000) >>> 10
  let rd := (bits &&& 0b0000000111110000) >>> 4
  let rr := ((bits &&& 0b0000001000000000) >>> 5) ||| (bits &&& 0b0000000000001111)
  match opcode with
  | 0b000011 => some (.Add rd rr)
  | 0b000111 => some (.Adc rd rr)
  | 0b000110 => some (.Sub rd rr)
  | 0b000010 => some (.Sbc rd rr)
  | 0b100111 => some (.Mul rd rr)
  | 0b001000 => some (.And rd rr)
  | 0b001010 => some (.Or rd rr)
  | 0b001001 => some (.Eor rd rr)
  | 0b000100 => some (.Cpse rd rr)
  | 0b000101 => some (.Cp rd rr)
  | 0b000001 => some (.Cpc rd rr)
  | 0b001011 => some (.Mov rd rr)
  | _ => none

/-- `try_read_rda`: `in`/`out` IO family. -/
def tryReadRda (bits : Nat) : Option Instruction :=
  let opcode := (bits &&& 0xf000) >>> 12
  let subopcode := (bits &&& 0b100000000000) >>> 11
  let reg := (bits &&& 0b111110000) >>> 4
  let a := ((bits &&& 0b11000000000) >>> 5) ||| (bits &&& 0b1111)
  if opcode ≠ 0b1011 then none
  else match subopcode with
  | 0b0 => some (.In reg a)
  | _ => some (.Out a reg)

/-- `try_read_io_ab`: `sbi`/`sbis`/`cbi`. -/
def tryReadIoAb (bits : Nat) : Option Instruction :=
  let opcode := (bits &&& 0xff00) >>> 8
  let a := (bits &&& 0b0000000011111000) >>> 3
  let b := bits &&& 0b111
  match opcode with
  | 0b10011010 => some (.Sbi a b)
  | 0b10011011 => some (.Sbis a b)
  | 0b10011000 => some (.Cbi a b)
  | _ => none

/-- `try_read_sbrs`. -/
def tryReadSbrs (bits : Nat) : Option Instruction :=
  let opcode := ((bits &&& 0xfe00) >>> 8) ||| ((bits &&& 0x8) >>> 3)
  let r := (bits &&& 0x01f0) >>> 4
  let b := bits &&& 0x7
  match opcode with
  | 0b11111110 => some (.Sbrs r b)
  | _ => none

/-- `try_read_rdz`: `lpm` register forms. -/
def tryReadRdz (bits : Nat) : Option Instruction :=
  let opcode := ((bits >>> 5) &&& 0b11111110000) ||| (bits &&& 0b1111)
  let register := (bits >>> 4) &&& 0b11111
  match opcode with
  | 0b10010000100 => some (.Lpm register 30 false)
  | 0b10010000101 => some (.Lpm register 30 true)
  | _ => none

/-- `try_read_k16`: `rjmp`/`rcall` with a 12-bit offset, sign-extended to
16 bits and left-shifted by 1 (byte addressing). -/
def tryReadK16 (bits : Nat) : Option Instruction :=
  let opcode := (bits &&& 0xf000) >>> 12
  let k := bits &&& 0x0fff
  let k := if k &&& 0x0800 ≠ 0 then k ||| 0xf000 else k
  let k := toI16 ((k <<< 1) % 65536)
  match opcode with
  | 0b1100 => some (.Rjmp k)
  | 0b1101 => some (.Rcall k)
  | _ => none

/-- `try_read_k32`: absolute `jmp`/`call`, target reassembled from two bit
groups and left-shifted by 1. -/
def tryReadK32 (bits : Nat) : Option Instruction :=
  let opcode := (bits &&& 0xfe000000) >>> 25
  let subopcode := (bits &&& 0xe0000) >>> 17
  let k := (((bits &&& 0x1f00000) >>> 20) ||| (bits &&& 0x1ffff)) <<< 1
  if opcode ≠ 0b1001010 then none
  else match subopcode with
  | 0b110 => some (.Jmp k)
  | 0b111 => some (.Call k)
  | _ => none

/-- `try_read_lds_sts`: direct load/store with a 16-bit literal address. -/
def tryReadLdsSts (bits : Nat) : Option Instruction :=
  let immediate := bits &&& 0xFFFF
  let upperHalf := bits >>> 16
  let opcode := ((upperHalf >>> 5) &&& 0b11111110000) ||| (upperHalf &&& 0b1111)
  let register := (upperHalf >>> 4) &&& 0b11111
  match opcode with
  | 0b10010000000 => some (.Lds register immediate)
  | 0b10010010000 => some (.Sts register immediate)
  | _ => none

/-- `try_read_st_ld`: pointer-indirect load/store forms. -/
def tryReadStLd (bits : Nat) : Option Instruction :=
  let opcode := (bits &&& 0b1111111000000000) >>> 9
  let subop := bits &&& 0xf
  let reg := (bits &&& 0x1f0) >>> 4
  match opcode, subop with
  | 0b1001001, 0b1100 => some (.St 26 reg .Normal)
  | 0b1001001, 0b1101 => some (.St 26 reg .Postincrement)
  | 0b1001001, 0b1110 => some (.St 26 reg .Predecrement)
  | 0b1000001, 0b1000 => some (.St 28 reg .Normal)
  | 0b1001001, 0b1001 => some (.St 28 reg .Postincrement)
  | 0b1001001, 0b1010 => some (.St 28 reg .Predecrement)
  | 0b1000001, 0b0000 => some (.St 30 reg .Normal)
  | 0b1001001, 0b0001 => some (.St 30 reg .Postincrement)
  | 0b1001001, 0b0010 => some (.St 30 reg .Predecrement)
  | 0b1001000, 0b1100 => some (.Ld reg 26 .Normal)
  | 0b1001000, 0b1101 => some (.Ld reg 26 .Postincrement)
  | 0b1001000, 0b1110 => some (.Ld reg 26 .Predecrement)
  | 0b1000000, 0b1000 => some (.Ld reg 28 .Normal)
  | 0b1001000, 0b1001 => some (.Ld reg 28 .Postincrement)
  | 0b1001000, 0b1010 => some (.Ld reg 28 .Predecrement)
  | 0b1000000, 0b0000 => some (.Ld reg 30 .Normal)
  | 0b1001000, 0b0001 => some (.Ld reg 30 .Postincrement)
  | 0b1001000, 0b0010 => some (.Ld reg 30 .Predecrement)
  | _, _ => none

/-- `try_read_std_ldd`: displacement load/store forms. -/
def tryReadStdLdd (bits : Nat) : Option Instruction :=
  let opcode := (bits &&& 0b1101000000000000) >>> 12
  let f := (bits &&& 0b0000001000000000) >>> 9
  let p := (bits &&& 0b1000) >>> 3
  let q := ((bits &&& 0b0010000000000000) >>> 7) |||
           ((bits &&& 0b0000110000000000) >>> 6) |||
           (bits &&& 0b0000000000000111)
  let reg := (bits &&& 0b111110000) >>> 4
  if opcode ≠ 0b1000 then none
  else
    let ptrreg := if p = 0 then 30 else 28
    if f = 0 then some (.Ldd reg ptrreg q) else some (.Std ptrreg q reg)

/-- `try_read_movw`. -/
def tryReadMovw (bits : Nat) : Option Instruction :=
  let opcode := (bits &&& 0xff00) >>> 8
  let rd := ((bits &&& 0x00f0) >>> 4) <<< 1
  let rr := (bits &&& 0x000f) <<< 1
  if opcode ≠ 0b00000001 then none
  else some (.Movw rd rr)

/-- `try_read_relcondbr`: flag-conditional relative branches; the 7-bit
offset is left-shifted by 1 inside `i8` and then sign-extended. -/
def tryReadRelcondbr (bits : Nat) : Option Instruction :=
  let opcode := bits &&& 0b1111110000000111
  let kBits := (bits &&& 0b0000001111111000) >>> 3
  let k := signExtend ((kBits <<< 1) % 256) 7
  match opcode with
  | 0b1111010000000001 => some (.Brne k)
  | 0b1111000000000001 => some (.Breq k)
  | 0b1111000000000000 => some (.Brcs k)
  | 0b1111010000000000 => some (.Brcc k)
  | 0b1111010000000100 => some (.Brge k)
  | 0b1111000000000101 => some (.Brhs k)
  | 0b1111010000000101 => some (.Brhc k)
  | 0b1111000000000111 => some (.Brie k)
  | 0b1111010000000111 => some (.Brid k)
  | 0b1111000000000100 => some (.Brlt k)
  | 0b1111000000000010 => some (.Brmi k)
  | 0b1111010000000010 => some (.Brpl k)
  | 0b1111000000000110 => some (.Brts k)
  | 0b1111010000000110 => some (.Brtc k)
  | 0b1111000000000011 => some (.Brvs k)
  | 0b1111010000000011 => some (.Brvc k)
  | _ => none

/-- `try_read_adiw`: `adiw`/`sbiw` on pairs starting at r24. -/
def tryReadAdiw (bits : Nat) : Option Instruction :=
  let opcode := bits >>> 8
  let k := ((bits >>> 6) &&& 0b11) ||| (bits &&& 0b1111)
  let d := ((bits >>> 3) &&& 0b110) + 24
  match opcode with
  | 0b10010110 => some (.Adiw d k)
  | 0b10010111 => some (.Sbiw d k)
  | _ => none

/-- `try_read16`: the fixed single-word patterns first, then every 16-bit
family matcher in the precedence order of the source. -/
def tryRead16 (bits : Nat) : Option Instruction :=
  let result : Option Instruction :=
    match bits with
    | 0 => some .Nop
    | 0x9508 => some .Ret
    | 0x9518 => some .Reti
    | 0x95C8 => some (.Lpm 0 30 false)
    | 0x9478 => some .Sei
    | 0x94F8 => some .Cli
    | _ => none
  (((((((((((((result.orElse (fun _ => tryReadRd bits)).orElse
    (fun _ => tryReadRdk bits)).orElse
    (fun _ => tryReadRdrr bits)).orElse
    (fun _ => tryReadRda bits)).orElse
    (fun _ => tryReadIoAb bits)).orElse
    (fun _ => tryReadRdz bits)).orElse
    (fun _ => tryReadK16 bits)).orElse
    (fun _ => tryReadStLd bits)).orElse
    (fun _ => tryReadStdLdd bits)).orElse
    (fun _ => tryReadMovw bits)).orElse
    (fun _ => tryReadRelcondbr bits)).orElse
    (fun _ => tryReadAdiw bits)).orElse
    (fun _ => tryReadSbrs bits))

/-- `try_read32`. -/
def tryRead32 (bits : Nat) : Option Instruction :=
  (tryReadK32 bits).orElse (fun _ => tryReadLdsSts bits)

/-- Result of `inst::binary::read` on a byte stream: the instruction and
the unconsumed remainder, a decode error, or a crash (the source unwraps
`bytes.next()`, so an exhausted stream panics). -/
inductive ReadRes where
  | ok : Instruction → List Nat → ReadRes
  | err : Error → ReadRes
  | crash : ReadRes

/-- `inst::binary::read`: reassemble a little-endian 16-bit word, try the
16-bit matchers, otherwise extend to a 32-bit word and try the 32-bit
matchers, otherwise fail with `UnknownInstruction` carrying the 32-bit
pattern. -/
def readInst (bytes : List Nat) : ReadRes :=
  match bytes with
  | b1 :: b2 :: rest =>
    let bits16 := (b2 <<< 8) ||| b1
    match tryRead16 bits16 with
    | some i => .ok i rest
    | none =>
      match rest with
      | b3 :: b4 :: rest2 =>
        let bits32 := (bits16 <<< 16) ||| (b4 <<< 8) ||| b3
        match tryRead32 bits32 with
        | some i => .ok i rest2
        | none => .err (.UnknownInstruction bits32)
      | _ => .crash
  | _ => .crash

/-- Result of `Core::fetch`. -/
inductive FetchRes where
  | ok : Instruction → Core → FetchRes
  | err : Error → FetchRes
  | crash : FetchRes

/-- `Core::fetch`: decode the instruction at PC and, immediately after,
the one following it — recording only the encoded size of the latter for
the skip instructions. -/
def Core.fetch (c : Core) : FetchRes :=
  match readInst (List.drop c.pc c.program_space) with
  | .crash => .crash
  | .err e => .err e
  | .ok inst rest =>
    match readInst rest with
    | .crash => .crash
    | .err e => .err e
    | .ok next _ => .ok inst { c with size_of_next_instruction := next.size }

/-- `Core::update_clock` on the data space: a 24-plus-bit counter kept at
addresses 0x105–0x108, read with two 16-bit loads, incremented, and
stored back with two 16-bit stores. -/
def clockTick (m : Space) : Space × Option Error :=
  match m.getU16 0x105 with
  | .error e => (m, some e)
  | .ok clkLo =>
    match m.getU16 0x107 with
    | .error e => (m, some e)
    | .ok clkHi =>
      let clk := (clkHi <<< 8) ||| clkLo
      let clk1 := (clk + 1) % 4294967296
      let p1 := m.setU16 0x105 (clk1 &&& 0xff)
      match p1.2 with
      | some e => (p1.1, some e)
      | none =>
        let p2 := p1.1.setU16 0x107 ((clk1 >>> 8) &&& 0xffff)
        (p2.1, p2.2)

/-- `Core::update_clock`. -/
def Core.updateClock (c : Core) : HRes :=
  match clockTick c.memory with
  | (m, none) => .ok { c with memory := m }
  | (m, some e) => .err e { c with memory := m }

/-- Result of a `Core::tick`: the executed instruction, its pre-execution
address, and the new state. -/
inductive TickRes where
  | ok : Instruction → Nat → Core → TickRes
  | err : Error → Core → TickRes
  | crash : TickRes

/-- `Core::tick`: fetch, capture the pre-execution PC, bump the memory
clock, then execute. -/
def Core.tick (c : Core) : TickRes :=
  match c.fetch with
  | .crash => .crash
  | .err e => .err e c
  | .ok inst c1 =>
    let pc := c1.pc
    match c1.updateClock with
    | .crash => .crash
    | .err e c2 => .err e c2
    | .ok c2 =>
      match c2.execute inst with
      | .crash => .crash
      | .err e c3 => .err e c3
      | .ok c3 => .ok inst pc c3

/-! Observation helpers used by the theorem statements. -/

/-- A named status flag of the state of a successful outcome. -/
def HRes.flag (r : HRes) (mask : Nat) : Option Bool :=
  match r with
  | .ok c => some (sregGet c.register_file.sreg mask)
  | _ => none

/-- A register value of the state of a successful outcome. -/
def HRes.regVal (r : HRes) (i : Nat) : Option Nat :=
  match r with
  | .ok c => c.register_file.registers.get? i
  | _ => none

/-- A data-memory byte of the state of a successful outcome. -/
def HRes.memVal (r : HRes) (a : Nat) : Option Nat :=
  match r with
  | .ok c => List.get? c.memory a
  | _ => none

/-- The program counter of a successful outcome. -/
def HRes.pcVal (r : HRes) : Option Nat :=
  match r with
  | .ok c => some c.pc
  | _ => none

/-- Every state contained in a tick outcome satisfies `P`. -/
def TickRes.All (P : Core → Prop) : TickRes → Prop
  | .ok _ _ c => P c
  | .err _ c => P c
  | .crash => True

/-- The clock counter as `update_clock` itself reads it back: two 16-bit
little-endian loads at 0x105 and 0x107, recombined as `(hi <<< 8) ||| lo`. -/
def readClock (m : Space) : Nat :=
  match m.getU16 0x105, m.getU16 0x107 with
  | .ok lo, .ok hi => (hi <<< 8) ||| lo
  | _, _ => 0

/-! Bit-arithmetic helper lemmas. -/

theorem shiftLeft_lor_eq_add (k a b : Nat) (hb : b < 2 ^ k) :
    (a <<< k) ||| b = a * 2 ^ k + b := by
  induction k generalizing a b with
  | zero =>
    have hb0 : b = 0 := by simpa using hb
    subst hb0
    simp [Nat.shiftLeft_eq]
  | succ k ih =>
    have hbd : b / 2 < 2 ^ k := by
      have h2 : (2 : Nat) ^ (k + 1) = 2 ^ k * 2 := by ring
      omega
    have h1 : a <<< (k + 1) = Nat.bit false (a <<< k) := by
      rw [Nat.shiftLeft_succ, Nat.bit_val]
      simp
    have h2 : b = Nat.bit b.bodd b.div2 := (Nat.bit_decomp b).symm
    have hmod : b.bodd.toNat = b % 2 := by
      have := Nat.bodd_add_div2 b
      rw [Nat.div2_val] at this
      omega
    calc (a <<< (k + 1)) ||| b
        = Nat.bit false (a <<< k) ||| Nat.bit b.bodd b.div2 := by rw [← h1, ← h2]
      _ = Nat.bit (false || b.bodd) ((a <<< k) ||| b.div2) := Nat.lor_bit _ _ _ _
      _ = 2 * ((a <<< k) ||| (b / 2)) + b % 2 := by
          rw [Nat.bit_val, Bool.false_or, Nat.div2_val, hmod]
      _ = 2 * (a * 2 ^ k + b / 2) + b % 2 := by rw [ih _ _ hbd]
      _ = a * 2 ^ (k + 1) + b := by ring_nf; omega

theorem and_two_pow_pos_eq_testBit (val i : Nat) :
    decide (0 < val &&& 2 ^ i) = val.testBit i := by
  rw [Nat.and_two_pow]
  cases h : val.testBit i <;> simp [h, Nat.pos_pow_of_pos]

theorem testBit_255 (i : Nat) (hi : i < 8) : (255 : Nat).testBit i = true := by
  have h : (255 : Nat) = 2 ^ 8 - 1 := by norm_num
  rw [h, Nat.testBit_two_pow_sub_one]
  simpa using hi

theorem sregGet_two_pow (v i : Nat) : sregGet v (2 ^ i) = v.testBit i := by
  unfold sregGet
  rw [Nat.and_two_pow]
  have hpos : (0 : Nat) < 2 ^ i := Nat.pos_pow_of_pos i (by norm_num)
  cases h : v.testBit i with
  | true => simp
  | false => simp [hpos.ne]

theorem testBit_sregSet_self (v i : Nat) (b : Bool) (hi : i < 8) :
    (sregSet v (2 ^ i) b).testBit i = b := by
  unfold sregSet
  cases b with
  | true => simp [Nat.testBit_lor, Nat.testBit_two_pow_self]
  | false =>
    rw [if_neg (by simp)]
    rw [Nat.testBit_land, Nat.testBit_xor, testBit_255 i hi, Nat.testBit_two_pow_self]
    simp

theorem testBit_sregSet_other (v i j : Nat) (b : Bool) (hij : i ≠ j) (hj : j < 8) :
    (sregSet v (2 ^ i) b).testBit j = v.testBit j := by
  unfold sregSet
  cases b with
  | true => simp [Nat.testBit_lor, Nat.testBit_two_pow_of_ne hij]
  | false =>
    rw [if_neg (by simp)]
    rw [Nat.testBit_land, Nat.testBit_xor, testBit_255 j hj, Nat.testBit_two_pow_of_ne hij]
    simp

theorem carryMaskEq : CARRY_FLAG = 2 ^ 0 := rfl

theorem zeroMaskEq : ZERO_FLAG = 2 ^ 1 := rfl

theorem negativeMaskEq : NEGATIVE_FLAG = 2 ^ 2 := rfl

theorem overflowMaskEq : OVERFLOW_FLAG = 2 ^ 3 := rfl

theorem sMaskEq : S_FLAG = 2 ^ 4 := rfl

theorem halfCarryMaskEq : HALF_CARRY_FLAG = 2 ^ 5 := rfl

theorem transferMaskEq : TRANSFER_FLAG = 2 ^ 6 := rfl

theorem interruptMaskEq : INTERRUPT_FLAG = 2 ^ 7 := rfl

theorem updSregArith_testBit3 (val v : Nat) :
    (updSregArith val v).testBit 3 = decide (255 < val) := by
  unfold updSregArith updZero updNegative updHalfCarry updCarry updOverflow
  rw [zeroMaskEq, sMaskEq, negativeMaskEq, halfCarryMaskEq, carryMaskEq, overflowMaskEq]
  rw [testBit_sregSet_other _ 1 3 _ (by decide) (by decide),
      testBit_sregSet_other _ 4 3 _ (by decide) (by decide),
      testBit_sregSet_other _ 2 3 _ (by decide) (by decide),
      testBit_sregSet_other _ 5 3 _ (by decide) (by decide),
      testBit_sregSet_other _ 0 3 _ (by decide) (by decide),
      testBit_sregSet_self _ 3 _ (by decide)]

theorem updSregArith_testBit0 (val v : Nat) :
    (updSregArith val v).testBit 0 = val.testBit 8 := by
  unfold updSregArith updZero updNegative updHalfCarry updCarry updOverflow
  rw [zeroMaskEq, sMaskEq, negativeMaskEq, halfCarryMaskEq, carryMaskEq, overflowMaskEq]
  rw [testBit_sregSet_other _ 1 0 _ (by decide) (by decide),
      testBit_sregSet_other _ 4 0 _ (by decide) (by decide),
      testBit_sregSet_other _ 2 0 _ (by decide) (by decide),
      testBit_sregSet_other _ 5 0 _ (by decide) (by decide),
      testBit_sregSet_self _ 0 _ (by decide)]
  rw [show (0b100000000 : Nat) = 2 ^ 8 from rfl, and_two_pow_pos_eq_testBit]

theorem updSregArith_testBit5 (val v : Nat) :
    (updSregArith val v).testBit 5 = val.testBit 3 := by
  unfold updSregArith updZero updNegative updHalfCarry updCarry updOverflow
  rw [zeroMaskEq, sMaskEq, negativeMaskEq, halfCarryMaskEq, carryMaskEq, overflowMaskEq]
  rw [testBit_sregSet_other _ 1 5 _ (by decide) (by decide),
      testBit_sregSet_other _ 4 5 _ (by decide) (by decide),
      testBit_sregSet_other _ 2 5 _ (by decide) (by decide),
      testBit_sregSet_self _ 5 _ (by decide)]
  rw [show (0b1000 : Nat) = 2 ^ 3 from rfl, and_two_pow_pos_eq_testBit]

theorem updSregArith_testBit2 (val v : Nat) :
    (updSregArith val v).testBit 2 = val.testBit 7 := by
  unfold updSregArith updZero updNegative updHalfCarry updCarry updOverflow
  rw [zeroMaskEq, sMaskEq, negativeMaskEq, halfCarryMaskEq, carryMaskEq, overflowMaskEq]
  rw [testBit_sregSet_other _ 1 2 _ (by decide) (by decide),
      testBit_sregSet_other _ 4 2 _ (by decide) (by decide),
      testBit_sregSet_self _ 2 _ (by decide)]
  rw [show (0b10000000 : Nat) = 2 ^ 7 from rfl, and_two_pow_pos_eq_testBit]

theorem updSregArith_testBit4 (val v : Nat) :
    (updSregArith val v).testBit 4 = !val.testBit 7 := by
  unfold updSregArith updZero updNegative updHalfCarry updCarry updOverflow
  rw [zeroMaskEq, sMaskEq, negativeMaskEq, halfCarryMaskEq, carryMaskEq, overflowMaskEq]
  rw [testBit_sregSet_other _ 1 4 _ (by decide) (by decide),
      testBit_sregSet_self _ 4 _ (by decide)]
  rw [show (0b10000000 : Nat) = 2 ^ 7 from rfl, and_two_pow_pos_eq_testBit]

theorem updSregArith_testBit1 (val v : Nat) :
    (updSregArith val v).testBit 1 = decide (val = 0) := by
  unfold updSregArith updZero
  rw [zeroMaskEq, testBit_sregSet_self _ 1 _ (by decide)]

theorem updSregArith_testBit6 (val v : Nat) :
    (updSregArith val v).testBit 6 = v.testBit 6 := by
  unfold updSregArith updZero updNegative updHalfCarry updCarry updOverflow
  rw [zeroMaskEq, sMaskEq, negativeMaskEq, halfCarryMaskEq, carryMaskEq, overflowMaskEq]
  rw [testBit_sregSet_other _ 1 6 _ (by decide) (by decide),
      testBit_sregSet_other _ 4 6 _ (by decide) (by decide),
      testBit_sregSet_other _ 2 6 _ (by decide) (by decide),
      testBit_sregSet_other _ 5 6 _ (by decide) (by decide),
      testBit_sregSet_other _ 0 6 _ (by decide) (by decide),
      testBit_sregSet_other _ 3 6 _ (by decide) (by decide)]

theorem updSregArith_testBit7 (val v : Nat) :
    (updSregArith val v).testBit 7 = v.testBit 7 := by
  unfold updSregArith updZero updNegative updHalfCarry updCarry updOverflow
  rw [zeroMaskEq, sMaskEq, negativeMaskEq, halfCarryMaskEq, carryMaskEq, overflowMaskEq]
  rw [testBit_sregSet_other _ 1 7 _ (by decide) (by decide),
      testBit_sregSet_other _ 4 7 _ (by decide) (by decide),
      testBit_sregSet_other _ 2 7 _ (by decide) (by decide),
      testBit_sregSet_other _ 5 7 _ (by decide) (by decide),
      testBit_sregSet_other _ 0 7 _ (by decide) (by decide),
      testBit_sregSet_other _ 3 7 _ (by decide) (by decide)]

theorem gpr_setReg_self (rf : RegisterFile) (rd v a : Nat) (h : rf.gpr rd = .ok a) :
    (rf.setReg rd v).gpr rd = .ok (v % 256) := by
  unfold RegisterFile.gpr at h ⊢
  unfold RegisterFile.setReg
  cases hg : rf.registers.get? rd with
  | none => rw [hg] at h; exact absurd h (by simp)
  | some w =>
    simp only [List.get?_set_eq, hg]
    rfl

/-- A core for the claimed `0xFF + 0x01` arithmetic-flag test. -/
def coreC1a : Core :=
  { register_file := { registers := [0xFF, 0x01], sreg := 0 }, program_space := [],
    memory := [], pc := 0, size_of_next_instruction := 0 }

/-- A core for the claimed `0x7F + 0x01` arithmetic-flag test. -/
def coreC1b : Core :=
  { register_file := { registers := [0x7F, 0x01], sreg := 0 }, program_space := [],
    memory := [], pc := 0, size_of_next_instruction := 0 }

/-- C1, counterexample.  The claim asserts Zero is set iff the truncated
8-bit result is 0 and, in particular, that adding registers holding `0xFF`
and `0x01` sets Zero, and that adding `0x7F` and `0x01` sets Overflow.  The
code computes Zero from the untruncated 16-bit sum (`0x100 ≠ 0`, Zero
clear) and Overflow from `sum > 0xFF` (`0x80` not above it, Overflow
clear), so both concrete instances fail. -/
theorem C1_counterexample :
    (Core.add coreC1a 0 1).flag ZERO_FLAG = some false ∧ (0xFF + 0x01) % 256 = 0 ∧
    (Core.add coreC1b 0 1).flag OVERFLOW_FLAG = some false ∧ Nat.testBit (0x7F + 0x01) 7 = true := by
  decide

/-- C1, amended.  For every `add` of two existing general-purpose registers
holding byte values, the flag profile of the 16-bit-widened sum holds:
Overflow iff the sum exceeds `0xFF`, Carry iff bit 8, Half-carry iff
bit 3, Negative iff bit 7 (Sign its complement), and Zero iff the
*untruncated widened sum* is 0; the destination receives the truncated
sum.  Consequently `0xFF + 0x01` sets Carry and clears Negative and Zero,
and `0x7F + 0x01` sets Negative and clears Zero, Carry and Overflow. -/
theorem C1_add_flag_profile (c : Core) (rd rr a b : Nat)
    (hrd : c.register_file.gpr rd = .ok a) (hrr : c.register_file.gpr rr = .ok b)
    (ha : a < 256) (hb : b < 256) :
    ∃ c', c.add rd rr = .ok c' ∧
      sregGet c'.register_file.sreg OVERFLOW_FLAG = decide (255 < a + b) ∧
      sregGet c'.register_file.sreg CARRY_FLAG = (a + b).testBit 8 ∧
      sregGet c'.register_file.sreg HALF_CARRY_FLAG = (a + b).testBit 3 ∧
      sregGet c'.register_file.sreg NEGATIVE_FLAG = (a + b).testBit 7 ∧
      sregGet c'.register_file.sreg S_FLAG = !(a + b).testBit 7 ∧
      sregGet c'.register_file.sreg ZERO_FLAG = decide (a + b = 0) ∧
      c'.register_file.gpr rd = .ok ((a + b) % 256) := by
  have hsum : (a + b) % 65536 = a + b := Nat.mod_eq_of_lt (by omega)
  unfold Core.add doRdrr
  rw [hrr, hrd]
  simp only [hsum]
  refine ⟨_, rfl, ?_, ?_, ?_, ?_, ?_, ?_, ?_⟩
  · rw [overflowMaskEq, sregGet_two_pow]
    exact updSregArith_testBit3 _ _
  · rw [carryMaskEq, sregGet_two_pow]
    exact updSregArith_testBit0 _ _
  · rw [halfCarryMaskEq, sregGet_two_pow]
    exact updSregArith_testBit5 _ _
  · rw [negativeMaskEq, sregGet_two_pow]
    exact updSregArith_testBit2 _ _
  · rw [sMaskEq, sregGet_two_pow]
    exact updSregArith_testBit4 _ _
  · rw [zeroMaskEq, sregGet_two_pow]
    exact updSregArith_testBit1 _ _
  · have h2 := gpr_setReg_self c.register_file rd ((a + b) % 256) a hrd
    simpa using h2

/-- C1, witness: the amended profile applied at both concrete inputs. -/
theorem C1_add_flag_profile_witness :
    ∃ c', Core.add coreC1a 0 1 = .ok c' ∧
      sregGet c'.register_file.sreg OVERFLOW_FLAG = decide (255 < 0xFF + 0x01) ∧
      sregGet c'.register_file.sreg CARRY_FLAG = (0xFF + 0x01).testBit 8 ∧
      sregGet c'.register_file.sreg HALF_CARRY_FLAG = (0xFF + 0x01).testBit 3 ∧
      sregGet c'.register_file.sreg NEGATIVE_FLAG = (0xFF + 0x01).testBit 7 ∧
      sregGet c'.register_file.sreg S_FLAG = !(0xFF + 0x01).testBit 7 ∧
      sregGet c'.register_file.sreg ZERO_FLAG = decide (0xFF + 0x01 = 0) ∧
      c'.register_file.gpr 0 = .ok ((0xFF + 0x01) % 256) :=
  C1_add_flag_profile coreC1a 0 1 0xFF 0x01 rfl rfl (by decide) (by decide)

/-- A core whose register r0 holds 0x42, whose stack-pointer low byte
(register 32) is 10, and whose 16-byte data memory holds 0x99
everywhere. -/
def coreC2 : Core :=
  { register_file := { registers := ((List.replicate 34 0).set 0 0x42).set 32 10, sreg := 0 },
    program_space := [], memory := List.replicate 16 0x99, pc := 0,
    size_of_next_instruction := 0 }

/-- C2: the claim says `pop` increments the stack pointer and then *reads
from memory into the register*, so that `push r` then `pop r` restores the
register.  The `pop` handler instead *writes* the register's value to data
memory at the incremented position and never reads memory: from a state
with r0 = 0x42, SP-low = 10 and memory full of 0x99, `pop r0` leaves r0
untouched and clobbers memory[11] with 0x42. -/
theorem C2_pop_writes_instead_of_reading :
    coreC2.memory.get? 11 = some 0x99 ∧
    (coreC2.pop 0).regVal 0 = some 0x42 ∧
    (coreC2.pop 0).regVal 32 = some 11 ∧
    (coreC2.pop 0).memVal 11 = some 0x42 := by decide

theorem gpr_setReg_ne (rf : RegisterFile) (i j v : Nat) (h : i ≠ j) :
    (rf.setReg i v).gpr j = rf.gpr j := by
  unfold RegisterFile.gpr RegisterFile.setReg
  rw [List.get?_set_ne _ _ h]

theorem and_ff00_shiftRight (v : Nat) : (v &&& 0xff00) >>> 8 = (v >>> 8) &&& 0xff := by
  apply Nat.eq_of_testBit_eq
  intro i
  rw [Nat.testBit_shiftRight, Nat.testBit_land, Nat.testBit_land, Nat.testBit_shiftRight]
  have h : (0xff00 : Nat) = 0xff <<< 8 := by norm_num [Nat.shiftLeft_eq]
  rw [h, Nat.testBit_shiftLeft]
  simp

theorem and_ff_eq_mod (v : Nat) : v &&& 0xff = v % 256 := by
  have h : (0xff : Nat) = 2 ^ 8 - 1 := by norm_num
  rw [h, Nat.and_pow_two_sub_one_eq_mod]

theorem shiftRight8_eq_div (v : Nat) : v >>> 8 = v / 256 := by
  rw [Nat.shiftRight_eq_div_pow]

theorem lor_byte_reassemble (hi lo : Nat) (hlo : lo < 256) :
    (hi <<< 8) ||| lo = hi * 256 + lo := by
  have := shiftLeft_lor_eq_add 8 hi lo (by norm_num [hlo])
  simpa using this

theorem gprPairVal_inv (rf : RegisterFile) (addr v : Nat)
    (h : rf.gprPairVal addr = .ok v) :
    addr % 2 = 0 ∧ ∃ lo hi, rf.gpr addr = .ok lo ∧ rf.gpr (addr + 1) = .ok hi ∧
      v = (hi <<< 8) ||| lo := by
  unfold RegisterFile.gprPairVal at h
  by_cases he : addr % 2 = 0
  · simp only [he, ne_eq, not_true_eq_false, if_false, reduceIte] at h
    cases hlo : rf.gpr addr with
    | error e => rw [hlo] at h; simp [Bind.bind, Except.bind] at h
    | ok lo =>
      cases hhi : rf.gpr (addr + 1) with
      | error e => rw [hlo, hhi] at h; simp [Bind.bind, Except.bind, Functor.map, Except.map] at h
      | ok hi =>
        rw [hlo, hhi] at h
        simp [Bind.bind, Except.bind, Functor.map, Except.map, pure, Except.pure] at h
        exact ⟨he, lo, hi, rfl, rfl, h.symm⟩
  · simp [he] at h

theorem gprPairVal_setGprPair (rf : RegisterFile) (low v lo0 hi0 : Nat)
    (hlo : rf.gpr low = .ok lo0) (hhi : rf.gpr (low + 1) = .ok hi0)
    (heven : low % 2 = 0) :
    (rf.setGprPair low v).gprPairVal low = .ok (v % 65536) := by
  unfold RegisterFile.setGprPair RegisterFile.gprPairVal
  rw [and_ff_eq_mod, and_ff00_shiftRight, and_ff_eq_mod, shiftRight8_eq_div]
  have h1 : ((rf.setReg low (v % 256)).setReg (low + 1) (v / 256 % 256)).gpr low
      = .ok (v % 256) := by
    rw [gpr_setReg_ne _ _ _ _ (by omega)]
    have := gpr_setReg_self rf low (v % 256) lo0 hlo
    simpa using this
  have h2 : ((rf.setReg low (v % 256)).setReg (low + 1) (v / 256 % 256)).gpr (low + 1)
      = .ok (v / 256 % 256) := by
    have hex : (rf.setReg low (v % 256)).gpr (low + 1) = .ok hi0 := by
      rw [gpr_setReg_ne _ _ _ _ (by omega)]; exact hhi
    have := gpr_setReg_self _ (low + 1) (v / 256 % 256) hi0 hex
    simpa using this
  simp only [heven, ne_eq, not_true_eq_false, if_false, reduceIte]
  rw [h1, h2]
  have hre : ((v / 256 % 256) <<< 8) ||| (v % 256) = v % 65536 := by
    rw [lor_byte_reassemble _ _ (by omega)]
    omega
  simp [Bind.bind, Except.bind, pure, Except.pure, hre]


theorem wsub16_lt (a b : Nat) : wsub16 a b < 65536 := by
  unfold wsub16
  omega

theorem setGprPair_lo (rf : RegisterFile) (low v lo0 : Nat) (h : rf.gpr low = .ok lo0) :
    (rf.setGprPair low v).gpr low = .ok (v % 256) := by
  unfold RegisterFile.setGprPair
  rw [gpr_setReg_ne _ _ _ _ (by omega)]
  rw [gpr_setReg_self rf low (v &&& 0xff) lo0 h]
  rw [and_ff_eq_mod]
  simp [Nat.mod_mod_of_dvd]

theorem setGprPair_hi (rf : RegisterFile) (low v hi0 : Nat) (h : rf.gpr (low + 1) = .ok hi0) :
    (rf.setGprPair low v).gpr (low + 1) = .ok (v / 256 % 256) := by
  unfold RegisterFile.setGprPair
  have hex : (rf.setReg low (v &&& 0xff)).gpr (low + 1) = .ok hi0 := by
    rw [gpr_setReg_ne _ _ _ _ (by omega)]
    exact h
  rw [gpr_setReg_self _ (low + 1) ((v &&& 0xff00) >>> 8) hi0 hex]
  rw [and_ff00_shiftRight, and_ff_eq_mod, shiftRight8_eq_div]
  simp [Nat.mod_mod_of_dvd]

theorem setU16_ok (m : Space) (addr v : Nat) (h : addr + 1 < m.length) :
    m.setU16 addr v = ((m.set addr (v % 256)).set (addr + 1) (v / 256 % 256), none) := by
  unfold Space.setU16 Space.setU8
  rw [if_pos (show addr < m.length by omega)]
  simp only [List.length_set]
  rw [if_pos (show addr + 1 < m.length by omega)]
  rw [and_ff_eq_mod v, and_ff_eq_mod (v >>> 8), shiftRight8_eq_div]
  simp [Nat.mod_mod_of_dvd]

theorem get?_set_self_of_lt {α : Type} (l : List α) (i : Nat) (a : α) (h : i < l.length) :
    (l.set i a).get? i = some a := by
  have ha : ∃ b, l.get? i = some b := by
    cases hg : l.get? i with
    | none => exact absurd (List.get?_eq_none.mp hg) (by omega)
    | some b => exact ⟨b, rfl⟩
  obtain ⟨b, hb⟩ := ha
  rw [List.get?_set_eq, hb]
  rfl

theorem getU16_set_pair (m : Space) (addr lo hi : Nat) (h : addr + 1 < m.length) :
    Space.getU16 ((m.set addr lo).set (addr + 1) hi) addr = .ok ((hi <<< 8) ||| lo) := by
  unfold Space.getU16 Space.getU8
  have h1 : ((m.set addr lo).set (addr + 1) hi).get? addr = some lo := by
    rw [List.get?_set_ne _ _ (by omega)]
    exact get?_set_self_of_lt _ _ _ (by omega)
  have h2 : ((m.set addr lo).set (addr + 1) hi).get? (addr + 1) = some hi :=
    get?_set_self_of_lt _ _ _ (by simp [List.length_set]; omega)
  rw [h1, h2]
  simp [Bind.bind, Except.bind, pure, Except.pure]

theorem execute_call_eq (c : Core) (k sp : Nat)
    (hsp : c.register_file.gprPairVal SP_LO_NUM = .ok sp)
    (hsp1 : 1 ≤ sp) (hsp16 : sp < 65536)
    (hmem : sp < c.memory.length) (hpc : c.pc + 4 < 65536) :
    c.execute (.Call k) = .ok
      { c with
        memory := (c.memory.set (sp - 1) ((c.pc + 4) % 256)).set (sp - 1 + 1)
          ((c.pc + 4) / 256 % 256),
        register_file := c.register_file.setGprPair SP_LO_NUM (wsub16 sp 2),
        pc := k } := by
  have hexec : c.execute (.Call k)
      = Core.call { c with pc := (c.pc + (Instruction.Call k).size) % 4294967296 } k := rfl
  have hadv : (c.pc + (Instruction.Call k).size) % 4294967296 = c.pc + 4 :=
    Nat.mod_eq_of_lt (by simp [Instruction.size]; omega)
  have hret : (c.pc + 4) % 65536 = c.pc + 4 := Nat.mod_eq_of_lt (by omega)
  have hws1 : wsub16 sp 1 = sp - 1 := by unfold wsub16; omega
  have hsetu := setU16_ok c.memory (sp - 1) (c.pc + 4)
    (show sp - 1 + 1 < c.memory.length by omega)
  rw [hexec]
  unfold Core.call
  simp only [hadv, hsp, hret, hws1, hsetu]

theorem execute_ret_eq (c : Core) (sp ra : Nat)
    (hsp : c.register_file.gprPairVal SP_LO_NUM = .ok sp)
    (hget : Space.getU16 c.memory (wsub16 ((sp + 2) % 65536) 1) = .ok ra) :
    c.execute .Ret = .ok
      { c with register_file := c.register_file.setGprPair SP_LO_NUM ((sp + 2) % 65536),
               pc := ra } := by
  have hexec : c.execute .Ret
      = Core.ret { c with pc := (c.pc + Instruction.size .Ret) % 4294967296 } := rfl
  rw [hexec]
  unfold Core.ret
  simp only [hsp, hget]

/-- A core for the call/ret round trip: SP pair = 0x30, 0x60 bytes of data
memory, PC at 0x10. -/
def coreC3 : Core :=
  { register_file := { registers := (List.replicate 34 0).set 32 0x30, sreg := 0 },
    program_space := [], memory := List.replicate 0x60 0, pc := 0x10,
    size_of_next_instruction := 0 }

/-- C3: executing `call k` then immediately `ret` restores PC to the
address just after the 4-byte `call` and restores the SP pair; `call`
writes the 16-bit return address at `SP-1`/`SP`, decrements the full SP
pair by 2 (mod 2^16) and jumps to `k`; `ret` increments SP by 2, reads the
return address at the post-increment `SP-1` and jumps to it. -/
theorem C3_call_ret_roundtrip (c : Core) (k sp : Nat)
    (hsp : c.register_file.gprPairVal SP_LO_NUM = .ok sp)
    (hsp1 : 1 ≤ sp) (hsp16 : sp < 65536)
    (hmem : sp < c.memory.length) (hpc : c.pc + 4 < 65536) :
    ∃ c1 c2, c.execute (.Call k) = .ok c1 ∧ c1.execute .Ret = .ok c2 ∧
      c1.pc = k ∧
      c1.memory.get? (sp - 1) = some ((c.pc + 4) % 256) ∧
      c1.register_file.gprPairVal SP_LO_NUM = .ok ((sp + 65534) % 65536) ∧
      c2.pc = c.pc + 4 ∧
      c2.register_file.gprPairVal SP_LO_NUM = .ok sp := by
  obtain ⟨heven, lo0, hi0, hglo, hghi, hv⟩ := gprPairVal_inv _ _ _ hsp
  have hws2 : wsub16 sp 2 = (sp + 65534) % 65536 := by unfold wsub16; omega
  have hcall := execute_call_eq c k sp hsp hsp1 hsp16 hmem hpc
  -- c1's register file facts
  have hpair1 :
      (c.register_file.setGprPair SP_LO_NUM (wsub16 sp 2)).gprPairVal SP_LO_NUM
        = .ok (wsub16 sp 2) := by
    have := gprPairVal_setGprPair c.register_file SP_LO_NUM (wsub16 sp 2) lo0 hi0 hglo hghi heven
    rwa [Nat.mod_eq_of_lt (wsub16_lt sp 2)] at this
  have hsp2 : (wsub16 sp 2 + 2) % 65536 = sp := by
    rw [hws2]
    omega
  have hws1 : wsub16 sp 1 = sp - 1 := by unfold wsub16; omega
  have hget : Space.getU16
      ((c.memory.set (sp - 1) ((c.pc + 4) % 256)).set (sp - 1 + 1) ((c.pc + 4) / 256 % 256))
      (wsub16 ((wsub16 sp 2 + 2) % 65536) 1) = .ok (c.pc + 4) := by
    rw [hsp2, hws1]
    have hs : sp - 1 + 1 = (sp - 1) + 1 := rfl
    have := getU16_set_pair c.memory (sp - 1) ((c.pc + 4) % 256) ((c.pc + 4) / 256 % 256)
      (by omega)
    rw [this, lor_byte_reassemble _ _ (by omega)]
    have harith : (c.pc + 4) / 256 % 256 * 256 + (c.pc + 4) % 256 = c.pc + 4 := by omega
    rw [harith]
  have hretx := execute_ret_eq
    { c with
      memory := (c.memory.set (sp - 1) ((c.pc + 4) % 256)).set (sp - 1 + 1)
        ((c.pc + 4) / 256 % 256),
      register_file := c.register_file.setGprPair SP_LO_NUM (wsub16 sp 2),
      pc := k } (wsub16 sp 2) (c.pc + 4) hpair1 hget
  rw [hsp2] at hretx
  refine ⟨_, _, hcall, hretx, rfl, ?_, ?_, rfl, ?_⟩
  · rw [List.get?_set_ne _ _ (by omega)]
    exact get?_set_self_of_lt _ _ _ (by omega)
  · rw [hpair1, hws2]
  · have hlo2 := setGprPair_lo c.register_file SP_LO_NUM (wsub16 sp 2) lo0 hglo
    have hhi2 := setGprPair_hi c.register_file SP_LO_NUM (wsub16 sp 2) hi0 hghi
    have := gprPairVal_setGprPair
      (c.register_file.setGprPair SP_LO_NUM (wsub16 sp 2)) SP_LO_NUM sp _ _ hlo2 hhi2 heven
    rwa [Nat.mod_eq_of_lt hsp16] at this

/-- C3, witness: the round trip at SP = 0x30, PC = 0x10, target 0x200. -/
theorem C3_call_ret_roundtrip_witness :
    ∃ c1 c2, coreC3.execute (.Call 0x200) = .ok c1 ∧ c1.execute .Ret = .ok c2 ∧
      c1.pc = 0x200 ∧
      c1.memory.get? (0x30 - 1) = some ((coreC3.pc + 4) % 256) ∧
      c1.register_file.gprPairVal SP_LO_NUM = .ok ((0x30 + 65534) % 65536) ∧
      c2.pc = coreC3.pc + 4 ∧
      c2.register_file.gprPairVal SP_LO_NUM = .ok 0x30 :=
  C3_call_ret_roundtrip coreC3 0x200 0x30 rfl (by decide) (by decide) (by decide) (by decide)


/-- C5: whenever the leading little-endian 16-bit word matches no 16-bit
matcher and the assembled 32-bit word matches no 32-bit matcher, `read`
returns `UnknownInstruction` carrying exactly the 32-bit pattern — an
error value, not a panic. -/
theorem C5_unknown_instruction (b1 b2 b3 b4 : Nat) (rest : List Nat)
    (h16 : tryRead16 ((b2 <<< 8) ||| b1) = none)
    (h32 : tryRead32 ((((b2 <<< 8) ||| b1) <<< 16) ||| (b4 <<< 8) ||| b3) = none) :
    readInst (b1 :: b2 :: b3 :: b4 :: rest) =
      .err (.UnknownInstruction ((((b2 <<< 8) ||| b1) <<< 16) ||| (b4 <<< 8) ||| b3)) := by
  unfold readInst
  simp only [h16, h32]

/-- C5, witness: the all-ones pattern decodes to no instruction and is
rejected with `UnknownInstruction 0xFFFFFFFF`. -/
theorem C5_unknown_instruction_witness :
    readInst [0xFF, 0xFF, 0xFF, 0xFF] = .err (.UnknownInstruction 0xFFFFFFFF) := by
  have h := C5_unknown_instruction 0xFF 0xFF 0xFF 0xFF [] rfl rfl
  exact h

/-- C7: `execute` advances PC by the size of the just-fetched instruction
before dispatching to the handler, so a taken relative jump with offset
`k` leaves PC at (address of the instruction) + (its size 2) + k, modulo
2^32. -/
theorem C7_pc_advances_before_dispatch :
    (∀ (c : Core) (i : Instruction),
      c.execute i = Core.dispatch { c with pc := (c.pc + i.size) % 4294967296 } i) ∧
    (∀ (c : Core) (k : Int),
      c.execute (.Rjmp k)
        = .ok { c with pc := (((c.pc : Int) + 2 + k).emod 4294967296).toNat }) := by
  constructor
  · intro c i
    rfl
  · intro c k
    have h1 : c.execute (.Rjmp k) = rjmpH k { c with pc := (c.pc + 2) % 4294967296 } := rfl
    rw [h1]
    unfold rjmpH
    have h2 : ((((c.pc + 2) % 4294967296 : Nat) : Int) + k).emod 4294967296
        = ((c.pc : Int) + 2 + k).emod 4294967296 := by
      push_cast
      have hconv : ∀ a b : Int, a.emod b = a % b := fun _ _ => rfl
      simp only [hconv]
      rw [Int.add_emod _ k, Int.emod_emod_of_dvd _ dvd_rfl,
        Int.add_emod ((c.pc : Int) + 2) k]
    simp only [h2]


theorem sregFlagClear_eq_set (v m : Nat) : v &&& (255 ^^^ m) = sregSet v m false := rfl

theorem and_sreg_testBits (r s : Nat) :
    (sregSet (updNegative r (updZero r s)) (2 ^ 3) false).testBit 1 = decide (r = 0) ∧
    (sregSet (updNegative r (updZero r s)) (2 ^ 3) false).testBit 2 = r.testBit 7 ∧
    (sregSet (updNegative r (updZero r s)) (2 ^ 3) false).testBit 4 = !r.testBit 7 ∧
    (sregSet (updNegative r (updZero r s)) (2 ^ 3) false).testBit 3 = false ∧
    (sregSet (updNegative r (updZero r s)) (2 ^ 3) false).testBit 0 = s.testBit 0 ∧
    (sregSet (updNegative r (updZero r s)) (2 ^ 3) false).testBit 5 = s.testBit 5 ∧
    (sregSet (updNegative r (updZero r s)) (2 ^ 3) false).testBit 6 = s.testBit 6 ∧
    (sregSet (updNegative r (updZero r s)) (2 ^ 3) false).testBit 7 = s.testBit 7 := by
  unfold updNegative updZero
  rw [negativeMaskEq, sMaskEq, zeroMaskEq]
  refine ⟨?_, ?_, ?_, ?_, ?_, ?_, ?_, ?_⟩
  · rw [testBit_sregSet_other _ 3 1 _ (by decide) (by decide),
      testBit_sregSet_other _ 4 1 _ (by decide) (by decide),
      testBit_sregSet_other _ 2 1 _ (by decide) (by decide),
      testBit_sregSet_self _ 1 _ (by decide)]
  · rw [testBit_sregSet_other _ 3 2 _ (by decide) (by decide),
      testBit_sregSet_other _ 4 2 _ (by decide) (by decide),
      testBit_sregSet_self _ 2 _ (by decide)]
    rw [show (0b10000000 : Nat) = 2 ^ 7 from rfl, and_two_pow_pos_eq_testBit]
  · rw [testBit_sregSet_other _ 3 4 _ (by decide) (by decide),
      testBit_sregSet_self _ 4 _ (by decide)]
    rw [show (0b10000000 : Nat) = 2 ^ 7 from rfl, and_two_pow_pos_eq_testBit]
  · rw [testBit_sregSet_self _ 3 _ (by decide)]
  · rw [testBit_sregSet_other _ 3 0 _ (by decide) (by decide),
      testBit_sregSet_other _ 4 0 _ (by decide) (by decide),
      testBit_sregSet_other _ 2 0 _ (by decide) (by decide),
      testBit_sregSet_other _ 1 0 _ (by decide) (by decide)]
  · rw [testBit_sregSet_other _ 3 5 _ (by decide) (by decide),
      testBit_sregSet_other _ 4 5 _ (by decide) (by decide),
      testBit_sregSet_other _ 2 5 _ (by decide) (by decide),
      testBit_sregSet_other _ 1 5 _ (by decide) (by decide)]
  · rw [testBit_sregSet_other _ 3 6 _ (by decide) (by decide),
      testBit_sregSet_other _ 4 6 _ (by decide) (by decide),
      testBit_sregSet_other _ 2 6 _ (by decide) (by decide),
      testBit_sregSet_other _ 1 6 _ (by decide) (by decide)]
  · rw [testBit_sregSet_other _ 3 7 _ (by decide) (by decide),
      testBit_sregSet_other _ 4 7 _ (by decide) (by decide),
      testBit_sregSet_other _ 2 7 _ (by decide) (by decide),
      testBit_sregSet_other _ 1 7 _ (by decide) (by decide)]

/-- A core whose registers r0 and r1 are both 0 and whose status register
is clear. -/
def coreC6 : Core :=
  { register_file := { registers := [0, 0], sreg := 0 }, program_space := [],
    memory := [], pc := 0, size_of_next_instruction := 0 }

/-- C6, counterexample.  The claim says the register-register OR handler
updates the Zero flag; `or` of two zero registers produces 0, yet the Zero
flag stays clear because the handler performs no flag update at all. -/
theorem C6_counterexample :
    (Core.or coreC6 0 1).regVal 0 = some 0 ∧
    (Core.or coreC6 0 1).flag ZERO_FLAG = some false := by
  decide

/-- A core with r0 = 0xF0, r1 = 0x0F and a clear status register, for the
C6 witness. -/
def coreC6w : Core :=
  { register_file := { registers := [0xF0, 0x0F], sreg := 0 }, program_space := [],
    memory := [], pc := 0, size_of_next_instruction := 0 }

/-- C6, amended.  The register-register AND stores the bitwise result and
updates Zero and Negative (with Sign the complement of Negative) and
clears Overflow, leaving Carry, Half-carry, Transfer and Interrupt-enable
unchanged; OR and XOR store the bitwise result and leave the entire
status register unchanged. -/
theorem C6_logical_ops (c : Core) (rd rr a b : Nat)
    (hrd : c.register_file.gpr rd = .ok a) (hrr : c.register_file.gpr rr = .ok b)
    (ha : a < 256) (hb : b < 256) :
    (∃ c', c.and rd rr = .ok c' ∧
      c'.register_file.gpr rd = .ok (a &&& b) ∧
      sregGet c'.register_file.sreg ZERO_FLAG = decide (a &&& b = 0) ∧
      sregGet c'.register_file.sreg NEGATIVE_FLAG = (a &&& b).testBit 7 ∧
      sregGet c'.register_file.sreg S_FLAG = !(a &&& b).testBit 7 ∧
      sregGet c'.register_file.sreg OVERFLOW_FLAG = false ∧
      sregGet c'.register_file.sreg CARRY_FLAG = sregGet c.register_file.sreg CARRY_FLAG ∧
      sregGet c'.register_file.sreg HALF_CARRY_FLAG
        = sregGet c.register_file.sreg HALF_CARRY_FLAG ∧
      sregGet c'.register_file.sreg TRANSFER_FLAG
        = sregGet c.register_file.sreg TRANSFER_FLAG ∧
      sregGet c'.register_file.sreg INTERRUPT_FLAG
        = sregGet c.register_file.sreg INTERRUPT_FLAG) ∧
    (∃ c', c.or rd rr = .ok c' ∧ c'.register_file.gpr rd = .ok (a ||| b) ∧
      c'.register_file.sreg = c.register_file.sreg) ∧
    (∃ c', c.eor rd rr = .ok c' ∧ c'.register_file.gpr rd = .ok (a ^^^ b) ∧
      c'.register_file.sreg = c.register_file.sreg) := by
  have hand : a &&& b < 256 := lt_of_le_of_lt (Nat.and_le_left) ha
  have hor : a ||| b < 256 := Nat.or_lt_two_pow (n := 8) ha hb
  have hxor : a ^^^ b < 256 := Nat.xor_lt_two_pow (n := 8) ha hb
  have hview := and_sreg_testBits (a &&& b) c.register_file.sreg
  refine ⟨?_, ?_, ?_⟩
  · unfold Core.and doRdrr
    rw [hrr, hrd]
    simp only []
    refine ⟨_, rfl, ?_, ?_, ?_, ?_, ?_, ?_, ?_, ?_, ?_⟩
    · show (c.register_file.setReg rd ((a &&& b) % 256)).gpr rd = .ok (a &&& b)
      have := gpr_setReg_self c.register_file rd ((a &&& b) % 256) a hrd
      simpa [Nat.mod_eq_of_lt hand] using this
    · show sregGet (sregSet (updNegative (a &&& b) (updZero (a &&& b) c.register_file.sreg))
        (2 ^ 3) false) ZERO_FLAG = decide (a &&& b = 0)
      rw [zeroMaskEq, sregGet_two_pow]
      exact hview.1
    · show sregGet (sregSet (updNegative (a &&& b) (updZero (a &&& b) c.register_file.sreg))
        (2 ^ 3) false) NEGATIVE_FLAG = (a &&& b).testBit 7
      rw [negativeMaskEq, sregGet_two_pow]
      exact hview.2.1
    · show sregGet (sregSet (updNegative (a &&& b) (updZero (a &&& b) c.register_file.sreg))
        (2 ^ 3) false) S_FLAG = !(a &&& b).testBit 7
      rw [sMaskEq, sregGet_two_pow]
      exact hview.2.2.1
    · show sregGet (sregSet (updNegative (a &&& b) (updZero (a &&& b) c.register_file.sreg))
        (2 ^ 3) false) OVERFLOW_FLAG = false
      rw [overflowMaskEq, sregGet_two_pow]
      exact hview.2.2.2.1
    · show sregGet (sregSet (updNegative (a &&& b) (updZero (a &&& b) c.register_file.sreg))
        (2 ^ 3) false) CARRY_FLAG = sregGet c.register_file.sreg CARRY_FLAG
      rw [carryMaskEq, sregGet_two_pow, sregGet_two_pow]
      exact hview.2.2.2.2.1
    · show sregGet (sregSet (updNegative (a &&& b) (updZero (a &&& b) c.register_file.sreg))
        (2 ^ 3) false) HALF_CARRY_FLAG = sregGet c.register_file.sreg HALF_CARRY_FLAG
      rw [halfCarryMaskEq, sregGet_two_pow, sregGet_two_pow]
      exact hview.2.2.2.2.2.1
    · show sregGet (sregSet (updNegative (a &&& b) (updZero (a &&& b) c.register_file.sreg))
        (2 ^ 3) false) TRANSFER_FLAG = sregGet c.register_file.sreg TRANSFER_FLAG
      rw [transferMaskEq, sregGet_two_pow, sregGet_two_pow]
      exact hview.2.2.2.2.2.2.1
    · show sregGet (sregSet (updNegative (a &&& b) (updZero (a &&& b) c.register_file.sreg))
        (2 ^ 3) false) INTERRUPT_FLAG = sregGet c.register_file.sreg INTERRUPT_FLAG
      rw [interruptMaskEq, sregGet_two_pow, sregGet_two_pow]
      exact hview.2.2.2.2.2.2.2
  · unfold Core.or doRdrr
    rw [hrr, hrd]
    simp only []
    refine ⟨_, rfl, ?_, rfl⟩
    show (c.register_file.setReg rd ((a ||| b) % 256)).gpr rd = .ok (a ||| b)
    have := gpr_setReg_self c.register_file rd ((a ||| b) % 256) a hrd
    simpa [Nat.mod_eq_of_lt hor] using this
  · unfold Core.eor doRdrr
    rw [hrr, hrd]
    simp only []
    refine ⟨_, rfl, ?_, rfl⟩
    show (c.register_file.setReg rd ((a ^^^ b) % 256)).gpr rd = .ok (a ^^^ b)
    have := gpr_setReg_self c.register_file rd ((a ^^^ b) % 256) a hrd
    simpa [Nat.mod_eq_of_lt hxor] using this

/-- C6, witness: the amended statement applied at r0 = 0xF0, r1 = 0x0F. -/
theorem C6_logical_ops_witness :
    (∃ c', Core.and coreC6w 0 1 = .ok c' ∧
      c'.register_file.gpr 0 = .ok (0xF0 &&& 0x0F) ∧
      sregGet c'.register_file.sreg ZERO_FLAG = decide (0xF0 &&& 0x0F = 0) ∧
      sregGet c'.register_file.sreg NEGATIVE_FLAG = (0xF0 &&& 0x0F).testBit 7 ∧
      sregGet c'.register_file.sreg S_FLAG = !(0xF0 &&& 0x0F).testBit 7 ∧
      sregGet c'.register_file.sreg OVERFLOW_FLAG = false ∧
      sregGet c'.register_file.sreg CARRY_FLAG = sregGet coreC6w.register_file.sreg CARRY_FLAG ∧
      sregGet c'.register_file.sreg HALF_CARRY_FLAG
        = sregGet coreC6w.register_file.sreg HALF_CARRY_FLAG ∧
      sregGet c'.register_file.sreg TRANSFER_FLAG
        = sregGet coreC6w.register_file.sreg TRANSFER_FLAG ∧
      sregGet c'.register_file.sreg INTERRUPT_FLAG
        = sregGet coreC6w.register_file.sreg INTERRUPT_FLAG) ∧
    (∃ c', Core.or coreC6w 0 1 = .ok c' ∧ c'.register_file.gpr 0 = .ok (0xF0 ||| 0x0F) ∧
      c'.register_file.sreg = coreC6w.register_file.sreg) ∧
    (∃ c', Core.eor coreC6w 0 1 = .ok c' ∧ c'.register_file.gpr 0 = .ok (0xF0 ^^^ 0x0F) ∧
      c'.register_file.sreg = coreC6w.register_file.sreg) :=
  C6_logical_ops coreC6w 0 1 0xF0 0x0F rfl rfl (by decide) (by decide)


/-- A core with r0 = 0x42, SP low byte 0x10, SP high byte 0x01 (so the SP
pair reads 0x0110) and 0x120 bytes of data memory holding 0x77. -/
def coreC9 : Core :=
  { register_file :=
      { registers := (((List.replicate 34 0).set 0 0x42).set 32 0x10).set 33 0x01, sreg := 0 },
    program_space := [], memory := List.replicate 0x120 0x77, pc := 0,
    size_of_next_instruction := 0 }

/-- C9, counterexample.  The claim says `push` accesses the stack pointer
as a full 16-bit pair.  With the SP pair holding 0x0110, a 16-bit push
would write at 0x10F/0x110; the handler instead writes at 0x10 (the low
byte alone), decrements only the low byte and never touches the high
byte, leaving memory at 0x110 intact. -/
theorem C9_counterexample :
    coreC9.register_file.gprPairVal SP_LO_NUM = .ok 0x110 ∧
    (coreC9.push 0).memVal 0x10 = some 0x42 ∧
    (coreC9.push 0).memVal 0x110 = some 0x77 ∧
    (coreC9.push 0).memVal 0x10F = some 0x77 ∧
    (coreC9.push 0).regVal 32 = some 0x0F ∧
    (coreC9.push 0).regVal 33 = some 0x01 :=
  ⟨rfl, by decide, by decide, by decide, by decide, by decide⟩

/-- A core for the C9 ret witness: SP pair = 0x2E, and the bytes at
0x2F/0x30 encode the return address 0x1234. -/
def coreC9r : Core :=
  { register_file := { registers := (List.replicate 34 0).set 32 0x2E, sreg := 0 },
    program_space := [],
    memory := ((List.replicate 0x60 0).set 0x2F 0x34).set 0x30 0x12, pc := 0,
    size_of_next_instruction := 0 }

/-- C9, amended.  `call` and `ret` read and write the stack pointer as the
full 16-bit register pair (the pair moves by ±2 modulo 2^16 and the
accessed address comes from the whole pair), while `push` and `pop`
operate on the low byte alone: the memory address is the low byte, only
register 32 is updated, and register 33 never changes. -/
theorem C9_sp_access_width :
    (∀ (c : Core) (rd a sp : Nat),
      c.register_file.gpr rd = .ok a → c.register_file.gpr SP_LO_NUM = .ok sp →
      0 < sp → sp < c.memory.length →
      c.push rd = .ok { c with memory := c.memory.set sp (a % 256),
                               register_file := c.register_file.setReg SP_LO_NUM (sp - 1) }) ∧
    (∀ (c : Core) (rd a sp : Nat),
      c.register_file.gpr rd = .ok a → c.register_file.gpr SP_LO_NUM = .ok sp →
      sp + 1 < 256 → sp + 1 < c.memory.length →
      c.pop rd = .ok { c with memory := c.memory.set (sp + 1) (a % 256),
                              register_file := c.register_file.setReg SP_LO_NUM (sp + 1) }) ∧
    (∀ (c : Core) (k sp : Nat),
      c.register_file.gprPairVal SP_LO_NUM = .ok sp →
      1 ≤ sp → sp < 65536 → sp < c.memory.length → c.pc + 4 < 65536 →
      ∃ c1, c.execute (.Call k) = .ok c1 ∧
        c1.register_file.gprPairVal SP_LO_NUM = .ok ((sp + 65534) % 65536)) ∧
    (∀ (c : Core) (sp ra : Nat),
      c.register_file.gprPairVal SP_LO_NUM = .ok sp →
      Space.getU16 c.memory (wsub16 ((sp + 2) % 65536) 1) = .ok ra →
      ∃ c2, c.execute .Ret = .ok c2 ∧ c2.pc = ra ∧
        c2.register_file.gprPairVal SP_LO_NUM = .ok ((sp + 2) % 65536)) := by
  refine ⟨?_, ?_, ?_, ?_⟩
  · intro c rd a sp hrd hsp hpos hlen
    unfold Core.push
    simp only [hrd, hsp]
    rw [if_neg (by omega)]
    unfold Space.setU8
    rw [if_pos hlen]
  · intro c rd a sp hrd hsp hbyte hlen
    unfold Core.pop
    simp only [hrd, hsp]
    have hmod : (sp + 1) % 256 = sp + 1 := Nat.mod_eq_of_lt (by omega)
    simp only [hmod]
    rw [if_neg (by omega)]
    unfold Space.setU8
    rw [if_pos (by simpa using hlen)]
  · intro c k sp hsp h1 h16 hlen hpc
    refine ⟨_, execute_call_eq c k sp hsp h1 h16 hlen hpc, ?_⟩
    obtain ⟨heven, lo0, hi0, hglo, hghi, hv⟩ := gprPairVal_inv _ _ _ hsp
    have := gprPairVal_setGprPair c.register_file SP_LO_NUM (wsub16 sp 2) lo0 hi0 hglo hghi heven
    have h2 : wsub16 sp 2 % 65536 = (sp + 65534) % 65536 := by unfold wsub16; omega
    rw [h2] at this
    exact this
  · intro c sp ra hsp hget
    refine ⟨_, execute_ret_eq c sp ra hsp hget, rfl, ?_⟩
    obtain ⟨heven, lo0, hi0, hglo, hghi, hv⟩ := gprPairVal_inv _ _ _ hsp
    have := gprPairVal_setGprPair c.register_file SP_LO_NUM ((sp + 2) % 65536) lo0 hi0 hglo hghi
      heven
    rwa [Nat.mod_mod_of_dvd _ dvd_rfl] at this

/-- C9, witness: the four parts applied at concrete cores — push and pop
at SP pair 0x0110 (low byte 0x10), call at SP 0x30, ret at SP 0x2E with
return address 0x1234. -/
theorem C9_sp_access_width_witness :
    (coreC9.push 0 = .ok { coreC9 with
      memory := coreC9.memory.set 0x10 (0x42 % 256),
      register_file := coreC9.register_file.setReg SP_LO_NUM (0x10 - 1) }) ∧
    (coreC9.pop 0 = .ok { coreC9 with
      memory := coreC9.memory.set (0x10 + 1) (0x42 % 256),
      register_file := coreC9.register_file.setReg SP_LO_NUM (0x10 + 1) }) ∧
    (∃ c1, coreC3.execute (.Call 0x200) = .ok c1 ∧
      c1.register_file.gprPairVal SP_LO_NUM = .ok ((0x30 + 65534) % 65536)) ∧
    (∃ c2, coreC9r.execute .Ret = .ok c2 ∧ c2.pc = 0x1234 ∧
      c2.register_file.gprPairVal SP_LO_NUM = .ok ((0x2E + 2) % 65536)) := by
  refine ⟨?_, ?_, ?_, ?_⟩
  · exact C9_sp_access_width.1 coreC9 0 0x42 0x10 rfl rfl (by decide) (by decide)
  · exact C9_sp_access_width.2.1 coreC9 0 0x42 0x10 rfl rfl (by decide) (by decide)
  · exact C9_sp_access_width.2.2.1 coreC3 0x200 0x30 rfl (by decide) (by decide) (by decide)
      (by decide)
  · exact C9_sp_access_width.2.2.2 coreC9r 0x2E 0x1234 rfl rfl


theorem and_shiftLeft_one_eq_zero_iff (v b : Nat) :
    v &&& (1 <<< b) = 0 ↔ v.testBit b = false := by
  rw [Nat.one_shiftLeft, Nat.and_two_pow]
  have hpos : (0 : Nat) < 2 ^ b := Nat.pos_pow_of_pos b (by norm_num)
  cases h : v.testBit b with
  | true => simp [hpos.ne']
  | false => simp

/-- A core with r0 = r1 = 7, r2 = 9, PC 50, and a recorded
next-instruction size of 4, for the skip-semantics witness. -/
def coreCpse : Core :=
  { register_file := { registers := [7, 7, 9], sreg := 0 }, program_space := [],
    memory := [], pc := 50, size_of_next_instruction := 4 }

/-- A core whose IO byte at address 0x20 (IO address 0) is 0x01 — bit 0
set — with PC 100 and a next-instruction size of 2. -/
def coreC4 : Core :=
  { register_file := { registers := [0], sreg := 0 }, program_space := [],
    memory := (List.replicate 0x40 0).set 0x20 1, pc := 100,
    size_of_next_instruction := 2 }

/-- C4: `cpse` with equal registers and `sbrs` with a set bit advance PC
by the executing instruction's size (2) plus exactly the recorded size of
the following instruction, and by 2 alone when the condition fails; the
recorded size is the encoded size of the instruction fetched immediately
after the current one, and only the fetched instruction is ever
dispatched.  For `sbis`, however, the source compares the whole IO byte
with the bit index: with the IO byte 0x01 and bit 0 — bit set, so the
claim demands a skip — the handler does not skip (PC ends at 102, not
104). -/
theorem C4_skip_semantics :
    (∀ (c : Core) (rd rr a : Nat),
      c.register_file.gpr rd = .ok a → c.register_file.gpr rr = .ok a →
      c.execute (.Cpse rd rr)
        = .ok { c with pc := (c.pc + 2 + c.size_of_next_instruction) % 4294967296 }) ∧
    (∀ (c : Core) (rd rr a b : Nat),
      c.register_file.gpr rd = .ok a → c.register_file.gpr rr = .ok b → a ≠ b →
      c.execute (.Cpse rd rr) = .ok { c with pc := (c.pc + 2) % 4294967296 }) ∧
    (∀ (c : Core) (r b v : Nat),
      c.register_file.gpr r = .ok v → v.testBit b = true →
      c.execute (.Sbrs r b)
        = .ok { c with pc := (c.pc + 2 + c.size_of_next_instruction) % 4294967296 }) ∧
    (∀ (c : Core) (r b v : Nat),
      c.register_file.gpr r = .ok v → v.testBit b = false →
      c.execute (.Sbrs r b) = .ok { c with pc := (c.pc + 2) % 4294967296 }) ∧
    (∀ (c : Core) (i j : Instruction) (rest rest2 : List Nat),
      readInst (List.drop c.pc c.program_space) = .ok i rest →
      readInst rest = .ok j rest2 →
      c.fetch = .ok i { c with size_of_next_instruction := j.size }) ∧
    ((coreC4.execute (.Sbis 0 0)).pcVal = some 102 ∧
      coreC4.memory.get? 0x20 = some 1 ∧ Nat.testBit 1 0 = true) := by
  refine ⟨?_, ?_, ?_, ?_, ?_, by decide, by decide, by decide⟩
  · intro c rd rr a hrd hrr
    have h : c.execute (.Cpse rd rr)
        = Core.cpse { c with pc := (c.pc + 2) % 4294967296 } rd rr := rfl
    rw [h]
    unfold Core.cpse
    simp [hrd, hrr, Nat.mod_add_mod]
  · intro c rd rr a b hrd hrr hne
    have h : c.execute (.Cpse rd rr)
        = Core.cpse { c with pc := (c.pc + 2) % 4294967296 } rd rr := rfl
    rw [h]
    unfold Core.cpse
    simp only [hrd, hrr]
    rw [if_neg hne]
  · intro c r b v hr hbit
    have h : c.execute (.Sbrs r b)
        = Core.sbrs { c with pc := (c.pc + 2) % 4294967296 } r b := rfl
    rw [h]
    unfold Core.sbrs
    simp only [hr]
    rw [if_pos (by rw [ne_eq, and_shiftLeft_one_eq_zero_iff, hbit]; simp)]
    rw [Nat.mod_add_mod]
  · intro c r b v hr hbit
    have h : c.execute (.Sbrs r b)
        = Core.sbrs { c with pc := (c.pc + 2) % 4294967296 } r b := rfl
    rw [h]
    unfold Core.sbrs
    simp only [hr]
    rw [if_neg (by rw [ne_eq, and_shiftLeft_one_eq_zero_iff, hbit]; simp)]
  · intro c i j rest rest2 h1 h2
    unfold Core.fetch
    simp only [h1, h2]

/-- C4, witness: cpse taken and not taken, sbrs taken and not taken, at
the concrete core (skip distance 2 + 4 when taken). -/
theorem C4_skip_semantics_witness :
    coreCpse.execute (.Cpse 0 1)
      = .ok { coreCpse with
          pc := (coreCpse.pc + 2 + coreCpse.size_of_next_instruction) % 4294967296 } ∧
    coreCpse.execute (.Cpse 0 2) = .ok { coreCpse with pc := (coreCpse.pc + 2) % 4294967296 } ∧
    coreCpse.execute (.Sbrs 2 0)
      = .ok { coreCpse with
          pc := (coreCpse.pc + 2 + coreCpse.size_of_next_instruction) % 4294967296 } ∧
    coreCpse.execute (.Sbrs 0 3) = .ok { coreCpse with pc := (coreCpse.pc + 2) % 4294967296 } :=
  ⟨C4_skip_semantics.1 coreCpse 0 1 7 rfl rfl,
   C4_skip_semantics.2.1 coreCpse 0 2 7 9 rfl rfl (by decide),
   C4_skip_semantics.2.2.1 coreCpse 2 0 9 rfl (by decide),
   C4_skip_semantics.2.2.2.1 coreCpse 0 3 7 rfl (by decide)⟩


theorem get?_some_of_lt {α : Type} (l : List α) (i : Nat) (h : i < l.length) :
    ∃ a, l.get? i = some a := by
  cases hg : l.get? i with
  | none => exact absurd (List.get?_eq_none.mp hg) (by omega)
  | some a => exact ⟨a, rfl⟩

theorem getU16_eq (m : Space) (addr lo hi : Nat)
    (hlo : m.get? addr = some lo) (hhi : m.get? (addr + 1) = some hi) :
    m.getU16 addr = .ok ((hi <<< 8) ||| lo) := by
  unfold Space.getU16 Space.getU8
  rw [hlo, hhi]
  simp [Bind.bind, Except.bind, pure, Except.pure]

theorem getU16_err_of_short (m : Space) (addr : Nat) (h : m.length ≤ addr + 1) :
    ∃ a, m.getU16 addr = .error (.SegmentationFault a) ∧ addr ≤ a ∧ a ≤ addr + 1 := by
  unfold Space.getU16 Space.getU8
  by_cases h1 : m.length ≤ addr
  · refine ⟨addr, ?_, le_refl _, by omega⟩
    rw [List.get?_eq_none.mpr h1]
    simp [Bind.bind, Except.bind]
  · obtain ⟨a, ha⟩ := get?_some_of_lt m addr (by omega)
    refine ⟨addr + 1, ?_, by omega, le_refl _⟩
    rw [ha, List.get?_eq_none.mpr (by omega)]
    simp [Bind.bind, Except.bind]

theorem getU16_ok_of_lt (m : Space) (addr : Nat) (h : addr + 1 < m.length) :
    ∃ v, m.getU16 addr = .ok v := by
  obtain ⟨lo, hlo⟩ := get?_some_of_lt m addr (by omega)
  obtain ⟨hi, hhi⟩ := get?_some_of_lt m (addr + 1) (by omega)
  exact ⟨_, getU16_eq m addr lo hi hlo hhi⟩

theorem and_ffff_eq_mod (v : Nat) : v &&& 0xffff = v % 65536 := by
  have h : (0xffff : Nat) = 2 ^ 16 - 1 := by norm_num
  rw [h, Nat.and_pow_two_sub_one_eq_mod]

theorem fetch_ok_frame (c : Core) (i : Instruction) (c1 : Core) (h : c.fetch = .ok i c1) :
    c1.register_file = c.register_file ∧ c1.memory = c.memory ∧ c1.pc = c.pc ∧
      c1.program_space = c.program_space := by
  unfold Core.fetch at h
  cases h1 : readInst (List.drop c.pc c.program_space) with
  | crash => simp only [h1] at h; exact FetchRes.noConfusion h
  | err e => simp only [h1] at h; exact FetchRes.noConfusion h
  | ok i2 rest =>
    simp only [h1] at h
    cases h2 : readInst rest with
    | crash => simp only [h2] at h; exact FetchRes.noConfusion h
    | err e => simp only [h2] at h; exact FetchRes.noConfusion h
    | ok j rest2 =>
      simp only [h2] at h
      injection h with hinst hcore
      rw [← hcore]
      exact ⟨rfl, rfl, rfl, rfl⟩

/-- The C10 witness core: a two-Nop program, 0x109 bytes of data memory,
34 zero registers. -/
def coreC10 : Core :=
  { register_file := { registers := List.replicate 34 0, sreg := 0 },
    program_space := [0, 0, 0, 0], memory := List.replicate 0x109 0, pc := 0,
    size_of_next_instruction := 0 }

/-- The same core with only 0x100 bytes of data memory. -/
def coreC10s : Core := { coreC10 with memory := List.replicate 0x100 0 }

/-- C10: `update_clock` — run by every tick between fetch and execute —
reads the two 16-bit words at 0x105 and 0x107, increments the combined
counter by one (mod 2^24 as read back), and writes exactly the four bytes
0x105–0x108; on data memories shorter than 0x109 bytes it faults with a
`SegmentationFault` at one of those addresses, so every tick whose fetch
succeeds fails on such a chip, and every successful tick has incremented
the stored counter. -/
theorem C10_clock_frame_effect :
    (∀ m : Space, 0x109 ≤ m.length → (∀ i b, m.get? i = some b → b < 256) →
      ∃ m', clockTick m = (m', none) ∧
        readClock m' = (readClock m + 1) % 16777216 ∧
        m'.length = m.length ∧
        (∀ a, a < 0x105 ∨ 0x108 < a → m'.get? a = m.get? a)) ∧
    (∀ m : Space, m.length < 0x109 →
      ∃ a, clockTick m = (m, some (.SegmentationFault a)) ∧ 0x105 ≤ a ∧ a ≤ 0x108) ∧
    (∀ (c : Core) (i : Instruction) (pc : Nat) (c' : Core),
      c.tick = .ok i pc c' → ∃ m1, clockTick c.memory = (m1, none)) ∧
    (∀ (c c1 : Core) (i : Instruction),
      c.fetch = .ok i c1 → c.memory.length < 0x109 →
      ∃ a, c.tick = .err (.SegmentationFault a) c1 ∧ 0x105 ≤ a ∧ a ≤ 0x108) := by
  refine ⟨?_, ?_, ?_, ?_⟩
  · intro m hlen hbytes
    obtain ⟨b105, h105⟩ := get?_some_of_lt m 0x105 (by omega)
    obtain ⟨b106, h106⟩ := get?_some_of_lt m 0x106 (by omega)
    obtain ⟨b107, h107⟩ := get?_some_of_lt m 0x107 (by omega)
    obtain ⟨b108, h108⟩ := get?_some_of_lt m 0x108 (by omega)
    have hb105 := hbytes _ _ h105
    have hb106 := hbytes _ _ h106
    have hb107 := hbytes _ _ h107
    have hb108 := hbytes _ _ h108
    have hget105 : m.getU16 0x105 = .ok ((b106 <<< 8) ||| b105) := getU16_eq m 0x105 _ _ h105 h106
    have hget107 : m.getU16 0x107 = .ok ((b108 <<< 8) ||| b107) := getU16_eq m 0x107 _ _ h107 h108
    set lo16 := (b106 <<< 8) ||| b105 with hlo16
    set hi16 := (b108 <<< 8) ||| b107 with hhi16
    have hlo16lt : lo16 < 65536 :=
      Nat.or_lt_two_pow (n := 16) (by simpa using Nat.shiftLeft_lt (n := 8) hb106) (by omega)
    have hhi16lt : hi16 < 65536 :=
      Nat.or_lt_two_pow (n := 16) (by simpa using Nat.shiftLeft_lt (n := 8) hb108) (by omega)
    set clk := (hi16 <<< 8) ||| lo16 with hclk
    have hclklt : clk < 16777216 :=
      Nat.or_lt_two_pow (n := 24) (by simpa using Nat.shiftLeft_lt (n := 16) hhi16lt)
        (by omega)
    have hmod32 : (clk + 1) % 4294967296 = clk + 1 := Nat.mod_eq_of_lt (by omega)
    have hv1 : (clk + 1) &&& 0xff = (clk + 1) % 256 := and_ff_eq_mod _
    have hv2 : ((clk + 1) >>> 8) &&& 0xffff = (clk + 1) / 256 % 65536 := by
      rw [shiftRight8_eq_div, and_ffff_eq_mod]
    have hset1 := setU16_ok m 0x105 ((clk + 1) % 256) (by omega)
    set m1 : Space := (m.set 0x105 ((clk + 1) % 256 % 256)).set 0x106 ((clk + 1) % 256 / 256 % 256)
      with hm1
    have hm1len : m1.length = m.length := by
      rw [hm1]
      simp [List.length_set]
    have hset2 := setU16_ok m1 0x107 ((clk + 1) / 256 % 65536) (by omega)
    have hclock : clockTick m =
        ((m1.set 0x107 ((clk + 1) / 256 % 65536 % 256)).set 0x108
          ((clk + 1) / 256 % 65536 / 256 % 256), none) := by
      unfold clockTick
      simp only [hget105, hget107, ← hlo16, ← hhi16, ← hclk, hmod32, hv1, hv2, hset1, hset2]
    refine ⟨_, hclock, ?_, ?_, ?_⟩
    · -- readClock relation
      have hr : readClock m = clk := by
        unfold readClock
        simp only [hget105, hget107]
      set mf : Space := (m1.set 0x107 ((clk + 1) / 256 % 65536 % 256)).set 0x108
        ((clk + 1) / 256 % 65536 / 256 % 256) with hmf
      have hf105 : mf.get? 0x105 = some ((clk + 1) % 256 % 256) := by
        rw [hmf, List.get?_set_ne _ _ (by omega), List.get?_set_ne _ _ (by omega), hm1,
          List.get?_set_ne _ _ (by omega)]
        exact get?_set_self_of_lt _ _ _ (by omega)
      have hf106 : mf.get? 0x106 = some ((clk + 1) % 256 / 256 % 256) := by
        rw [hmf, List.get?_set_ne _ _ (by omega), List.get?_set_ne _ _ (by omega), hm1]
        exact get?_set_self_of_lt _ _ _ (by simp [List.length_set]; omega)
      have hf107 : mf.get? 0x107 = some ((clk + 1) / 256 % 65536 % 256) := by
        rw [hmf, List.get?_set_ne _ _ (by omega)]
        exact get?_set_self_of_lt _ _ _ (by rw [hm1]; simp [List.length_set]; omega)
      have hf108 : mf.get? 0x108 = some ((clk + 1) / 256 % 65536 / 256 % 256) := by
        rw [hmf]
        exact get?_set_self_of_lt _ _ _ (by simp [List.length_set]; rw [hm1]; simp [List.length_set]; omega)
      have hrf : readClock mf = (clk + 1) % 16777216 := by
        unfold readClock
        simp only [getU16_eq mf 0x105 _ _ hf105 hf106, getU16_eq mf 0x107 _ _ hf107 hf108]
        rw [lor_byte_reassemble ((clk + 1) % 256 / 256 % 256) ((clk + 1) % 256 % 256) (by omega)]
        rw [lor_byte_reassemble ((clk + 1) / 256 % 65536 / 256 % 256)
          ((clk + 1) / 256 % 65536 % 256) (by omega)]
        rw [lor_byte_reassemble _ _ (by omega)]
        omega
      rw [hrf, hr]
    · simp [hm1len, List.length_set]
    · intro a ha
      rw [List.get?_set_ne _ _ (by omega), List.get?_set_ne _ _ (by omega), hm1,
        List.get?_set_ne _ _ (by omega), List.get?_set_ne _ _ (by omega)]
  · intro m hlen
    by_cases hshort : m.length ≤ 0x106
    · obtain ⟨a, herr, ha1, ha2⟩ := getU16_err_of_short m 0x105 (by omega)
      refine ⟨a, ?_, by omega, by omega⟩
      unfold clockTick
      simp only [herr]
    · obtain ⟨v, hok⟩ := getU16_ok_of_lt m 0x105 (by omega)
      obtain ⟨a, herr, ha1, ha2⟩ := getU16_err_of_short m 0x107 (by omega)
      refine ⟨a, ?_, by omega, by omega⟩
      unfold clockTick
      simp only [hok, herr]
  · intro c i pc c' h
    unfold Core.tick at h
    cases hf : c.fetch with
    | crash => simp only [hf] at h; exact TickRes.noConfusion h
    | err e => simp only [hf] at h; exact TickRes.noConfusion h
    | ok i2 c1 =>
      simp only [hf] at h
      obtain ⟨-, hmem, -, -⟩ := fetch_ok_frame c i2 c1 hf
      unfold Core.updateClock at h
      cases hct : clockTick c1.memory with
      | mk m1 opt =>
        simp only [hct] at h
        cases opt with
        | none => exact ⟨m1, by rw [← hmem]; exact hct⟩
        | some e => simp at h
  · intro c c1 i hf hlen
    obtain ⟨-, hmem, -, -⟩ := fetch_ok_frame c i c1 hf
    have hlen1 : c1.memory.length < 0x109 := by rw [hmem]; exact hlen
    obtain ⟨a, hclk, ha1, ha2⟩ :=
      (by exact (fun m h => by
        by_cases hshort : m.length ≤ 0x106
        · obtain ⟨a, herr, hx1, hx2⟩ := getU16_err_of_short m 0x105 (by omega)
          refine ⟨a, ?_, by omega, by omega⟩
          unfold clockTick
          simp only [herr]
        · obtain ⟨v, hok⟩ := getU16_ok_of_lt m 0x105 (by omega)
          obtain ⟨a, herr, hx1, hx2⟩ := getU16_err_of_short m 0x107 (by omega)
          refine ⟨a, ?_, by omega, by omega⟩
          unfold clockTick
          simp only [hok, herr]) :
        ∀ m : Space, m.length < 0x109 →
          ∃ a, clockTick m = (m, some (Error.SegmentationFault a)) ∧ 0x105 ≤ a ∧ a ≤ 0x108)
        c1.memory hlen1
    refine ⟨a, ?_, ha1, ha2⟩
    unfold Core.tick
    simp only [hf]
    unfold Core.updateClock
    simp only [hclk]


/-- C10, witness: the four parts at the concrete cores — a 0x109-byte
memory ticks successfully and increments the counter; a 0x100-byte memory
faults inside 0x105–0x108. -/
theorem C10_clock_frame_effect_witness :
    (∃ m', clockTick coreC10.memory = (m', none) ∧
      readClock m' = (readClock coreC10.memory + 1) % 16777216 ∧
      m'.length = coreC10.memory.length ∧
      (∀ a, a < 0x105 ∨ 0x108 < a → m'.get? a = coreC10.memory.get? a)) ∧
    (∃ a, clockTick coreC10s.memory = (coreC10s.memory, some (.SegmentationFault a)) ∧
      0x105 ≤ a ∧ a ≤ 0x108) ∧
    (∃ m1, clockTick coreC10.memory = (m1, none)) ∧
    (∃ a, coreC10s.tick
        = .err (.SegmentationFault a) { coreC10s with size_of_next_instruction := 2 } ∧
      0x105 ≤ a ∧ a ≤ 0x108) := by
  have hbytes : ∀ i b, (coreC10.memory : List Nat).get? i = some b → b < 256 := by
    intro i b h
    have hm := List.get?_mem h
    rw [show (coreC10.memory : List Nat) = List.replicate 0x109 0 from rfl] at hm
    rw [List.mem_replicate] at hm
    omega
  refine ⟨C10_clock_frame_effect.1 coreC10.memory (by decide) hbytes,
    C10_clock_frame_effect.2.1 coreC10s.memory (by decide), ?_, ?_⟩
  · obtain ⟨i, pc, c', h⟩ : ∃ i pc c', coreC10.tick = .ok i pc c' := ⟨.Nop, 0, _, rfl⟩
    exact C10_clock_frame_effect.2.2.1 coreC10 i pc c' h
  · exact C10_clock_frame_effect.2.2.2 coreC10s
      { coreC10s with size_of_next_instruction := 2 } .Nop rfl (by decide)


/-- The claimed status-register invariant: the Sign bit (bit 4) is the
complement of the Negative bit (bit 2). -/
def invS (v : Nat) : Prop := v.testBit 4 = !v.testBit 2

/-- The invariant read on a core. -/
def sregInvariant (c : Core) : Prop := invS c.register_file.sreg

theorem invS_updSregArith (val v : Nat) : invS (updSregArith val v) := by
  unfold invS
  rw [updSregArith_testBit4, updSregArith_testBit2]

theorem invS_updSregCp (a b v : Nat) : invS (updSregCp a b v) := by
  unfold invS updSregCp updZero updNegative updOverflow
  simp only []
  rw [carryMaskEq, zeroMaskEq, sMaskEq, negativeMaskEq]
  rw [testBit_sregSet_other _ 0 4 _ (by decide) (by decide),
      testBit_sregSet_other _ 1 4 _ (by decide) (by decide),
      testBit_sregSet_self _ 4 _ (by decide),
      testBit_sregSet_other _ 0 2 _ (by decide) (by decide),
      testBit_sregSet_other _ 1 2 _ (by decide) (by decide),
      testBit_sregSet_other _ 4 2 _ (by decide) (by decide),
      testBit_sregSet_self _ 2 _ (by decide)]

theorem invS_sregSet_high (v : Nat) (b : Bool) (hv : invS v) : invS (sregSet v (2 ^ 7) b) := by
  unfold invS at hv ⊢
  rw [testBit_sregSet_other _ 7 4 _ (by decide) (by decide),
      testBit_sregSet_other _ 7 2 _ (by decide) (by decide)]
  exact hv

theorem invS_and_chain (r s : Nat) :
    invS (sregSet (updNegative r (updZero r s)) (2 ^ 3) false) := by
  have h := and_sreg_testBits r s
  unfold invS
  rw [h.2.2.1, h.2.1]

theorem invAll_oRes_doRd (c : Core) (rd : Nat) (f : Nat → Nat) (h : sregInvariant c) :
    HRes.All sregInvariant (oRes (doRd c rd f)) := by
  unfold oRes doRd
  cases c.register_file.gpr rd with
  | error e => trivial
  | ok v => exact h

theorem invAll_oRes_doRdrr16 (c : Core) (rd rr : Nat) (f : Nat → Nat → Nat)
    (h : sregInvariant c) : HRes.All sregInvariant (oRes (doRdrr16 c rd rr f)) := by
  unfold oRes doRdrr16
  by_cases he : rd % 2 = 0 ∧ rr % 2 = 0
  · rw [if_pos he]
    cases c.register_file.gpr rr with
    | error e => trivial
    | ok a =>
      cases c.register_file.gpr (rr + 1) with
      | error e => trivial
      | ok b =>
        cases c.register_file.gpr rd with
        | error e => trivial
        | ok d =>
          cases c.register_file.gpr (rd + 1) with
          | error e => trivial
          | ok d2 => exact h
  · rw [if_neg he]
    trivial

theorem doRdrr_sreg (c : Core) (rd rr : Nat) (f : Nat → Nat → Nat) (v : Nat) (c1 : Core)
    (h : doRdrr c rd rr f = some (v, c1)) :
    c1.register_file.sreg = c.register_file.sreg := by
  unfold doRdrr at h
  split at h
  · exact absurd h (by simp)
  · split at h
    · exact absurd h (by simp)
    · simp only [Option.some.injEq, Prod.mk.injEq] at h
      rw [← h.2]
      rfl

theorem doRdi_sreg (c : Core) (rd : Nat) (f : Nat → Nat) (v : Nat) (c1 : Core)
    (h : doRdi c rd f = some (v, c1)) :
    c1.register_file.sreg = c.register_file.sreg := by
  unfold doRdi at h
  split at h
  · exact absurd h (by simp)
  · simp only [Option.some.injEq, Prod.mk.injEq] at h
    rw [← h.2]
    rfl

theorem invAll_rdrrArith (c : Core) (rd rr : Nat) (f : Nat → Nat → Nat) :
    HRes.All sregInvariant
      (match doRdrr c rd rr f with
       | none => HRes.crash
       | some (v, c1) => .ok (c1.updateSregArithmetic v)) := by
  cases hdo : doRdrr c rd rr f with
  | none => trivial
  | some p => exact invS_updSregArith _ _

theorem invAll_rdiArith (c : Core) (rd : Nat) (f : Nat → Nat) :
    HRes.All sregInvariant
      (match doRdi c rd f with
       | none => HRes.crash
       | some (v, c1) => .ok (c1.updateSregArithmetic v)) := by
  cases hdo : doRdi c rd f with
  | none => trivial
  | some p => exact invS_updSregArith _ _

theorem invAll_rdrrPass (c : Core) (rd rr : Nat) (f : Nat → Nat → Nat) (h : sregInvariant c) :
    HRes.All sregInvariant
      (match doRdrr c rd rr f with
       | none => HRes.crash
       | some (_, c1) => .ok c1) := by
  cases hdo : doRdrr c rd rr f with
  | none => trivial
  | some p =>
    show sregInvariant p.2
    unfold sregInvariant
    rw [doRdrr_sreg c rd rr f p.1 p.2 (by rw [hdo])]
    exact h

theorem invAll_rdiPass (c : Core) (rd : Nat) (f : Nat → Nat) (h : sregInvariant c) :
    HRes.All sregInvariant
      (match doRdi c rd f with
       | none => HRes.crash
       | some (_, c1) => .ok c1) := by
  cases hdo : doRdi c rd f with
  | none => trivial
  | some p =>
    show sregInvariant p.2
    unfold sregInvariant
    rw [doRdi_sreg c rd f p.1 p.2 (by rw [hdo])]
    exact h

theorem invAll_doIoAb (c : Core) (a b : Nat) (f : Core → Nat → Nat → Core × Nat)
    (hf : ∀ s cur bb, (f s cur bb).1.register_file.sreg = s.register_file.sreg)
    (h : sregInvariant c) :
    HRes.All sregInvariant (doIoAb c a b f) := by
  unfold doIoAb
  dsimp only []
  cases hg : c.memory.getU8 (SRAM_IO_OFFSET + a) with
  | error e => exact h
  | ok cur =>
    dsimp only []
    have hs := hf c cur b
    cases hset : (f c cur b).1.memory.setU8 (SRAM_IO_OFFSET + a) (f c cur b).2 with
    | error e =>
      show invS (f c cur b).1.register_file.sreg
      rw [hs]
      exact h
    | ok m =>
      show invS (f c cur b).1.register_file.sreg
      rw [hs]
      exact h

theorem invAll_doSregBranch (c : Core) (k : Int) (f : Nat → Bool) (h : sregInvariant c) :
    HRes.All sregInvariant (doSregBranch c k f) := by
  unfold doSregBranch rjmpH
  by_cases hc : f c.register_file.sreg = true
  · rw [if_pos hc]
    exact h
  · rw [if_neg hc]
    exact h

theorem ret_sreg_All (c : Core) :
    HRes.All (fun c' => c'.register_file.sreg = c.register_file.sreg) c.ret := by
  unfold Core.ret
  cases hsp : c.register_file.gprPairVal SP_LO_NUM with
  | error e => trivial
  | ok sp =>
    dsimp only []
    cases hget : c.memory.getU16 (wsub16 ((sp + 2) % 65536) 1) with
    | error e => rfl
    | ok ra => rfl


theorem handleLdStVariant_sreg (c : Core) (ptr : Nat) (variant : Variant) (c1 : Core)
    (h : handleLdStVariant c ptr variant = some c1) :
    c1.register_file.sreg = c.register_file.sreg := by
  unfold handleLdStVariant at h
  split at h
  · exact absurd h (by simp)
  · simp only [Option.some.injEq] at h
    rw [← h]
    rfl

theorem HRes.All_of_sreg_eq (c : Core) (r : HRes)
    (hall : HRes.All (fun c' => c'.register_file.sreg = c.register_file.sreg) r)
    (h : sregInvariant c) : HRes.All sregInvariant r := by
  cases r with
  | ok c1 =>
    show invS c1.register_file.sreg
    rw [show c1.register_file.sreg = c.register_file.sreg from hall]
    exact h
  | err e c1 =>
    show invS c1.register_file.sreg
    rw [show c1.register_file.sreg = c.register_file.sreg from hall]
    exact h
  | crash => trivial

theorem dispatch_preserves_invS (c : Core) (i : Instruction) (h : sregInvariant c) :
    HRes.All sregInvariant (Core.dispatch c i) := by
  cases i with
  | Inc rd => exact invAll_oRes_doRd c rd _ h
  | Dec rd => exact invAll_oRes_doRd c rd _ h
  | Com rd => exact invAll_oRes_doRd c rd _ h
  | Neg rd => exact invAll_oRes_doRd c rd _ h
  | Swap rd => exact invAll_oRes_doRd c rd _ h
  | Ldi rd k => exact invAll_oRes_doRd c rd _ h
  | Push rd =>
    show HRes.All sregInvariant (c.push rd)
    unfold Core.push
    cases c.register_file.gpr rd with
    | error e => exact h
    | ok rdVal =>
      dsimp only []
      cases c.register_file.gpr SP_LO_NUM with
      | error e => exact h
      | ok sp =>
        dsimp only []
        split
        · trivial
        · cases c.memory.setU8 sp rdVal with
          | error e => exact h
          | ok m => exact h
  | Pop rd =>
    show HRes.All sregInvariant (c.pop rd)
    unfold Core.pop
    cases c.register_file.gpr rd with
    | error e => exact h
    | ok rdVal =>
      dsimp only []
      cases c.register_file.gpr SP_LO_NUM with
      | error e => exact h
      | ok sp =>
        dsimp only []
        split
        · trivial
        · split
          · exact h
          · exact h
  | Subi rd k => exact invAll_rdiArith c rd _
  | Sbci rd k => exact invAll_rdiArith c rd _
  | Andi rd k => exact invAll_rdiPass c rd _ h
  | Ori rd k => exact invAll_rdiPass c rd _ h
  | Cpi rd k => exact h
  | Add rd rr => exact invAll_rdrrArith c rd rr _
  | Adc rd rr => exact invAll_rdrrArith c rd rr _
  | Adiw rd k =>
    show HRes.All sregInvariant (c.adiw rd k)
    unfold Core.adiw
    cases c.register_file.gprPairVal rd with
    | error e => exact h
    | ok pv => exact invS_updSregArith _ _
  | Sub rd rr => exact invAll_rdrrArith c rd rr _
  | Sbc rd rr => exact invAll_rdrrArith c rd rr _
  | Sbiw rd k =>
    show HRes.All sregInvariant (c.sbiw rd k)
    unfold Core.sbiw
    cases c.register_file.gprPairVal rd with
    | error e => exact h
    | ok pv => exact invS_updSregArith _ _
  | Mul rd rr => trivial
  | And rd rr =>
    show HRes.All sregInvariant (c.and rd rr)
    unfold Core.and
    cases doRdrr c rd rr (fun a b => a &&& b) with
    | none => trivial
    | some p => exact invS_and_chain p.1 p.2.register_file.sreg
  | Or rd rr => exact invAll_rdrrPass c rd rr _ h
  | Eor rd rr => exact invAll_rdrrPass c rd rr _ h
  | Mov rd rr => exact invAll_rdrrPass c rd rr _ h
  | Movw rd rr => exact invAll_oRes_doRdrr16 c rd rr _ h
  | Cpse rd rr =>
    show HRes.All sregInvariant (c.cpse rd rr)
    unfold Core.cpse
    cases c.register_file.gpr rd with
    | error e => exact h
    | ok a =>
      dsimp only []
      cases c.register_file.gpr rr with
      | error e => exact h
      | ok b =>
        dsimp only []
        split
        · exact h
        · exact h
  | Cp rd rr =>
    show HRes.All sregInvariant (c.cp rd rr)
    unfold Core.cp
    cases c.register_file.gpr rd with
    | error e => exact h
    | ok a =>
      dsimp only []
      cases c.register_file.gpr rr with
      | error e => exact h
      | ok b => exact invS_updSregCp _ _ _
  | Cpc rd rr =>
    show HRes.All sregInvariant (c.cpc rd rr)
    unfold Core.cpc
    cases c.register_file.gpr rd with
    | error e => exact h
    | ok a =>
      dsimp only []
      cases c.register_file.gpr rr with
      | error e => exact h
      | ok b => exact invS_updSregArith _ _
  | Nop => exact h
  | Ret => exact HRes.All_of_sreg_eq c _ (ret_sreg_All c) h
  | Reti =>
    show HRes.All sregInvariant c.reti
    unfold Core.reti
    cases hr : c.ret with
    | ok c1 =>
      have hs := ret_sreg_All c
      rw [hr] at hs
      have h1 : invS c1.register_file.sreg := by
        rw [show c1.register_file.sreg = c.register_file.sreg from hs]
        exact h
      exact invS_sregSet_high _ true h1
    | err e c1 =>
      have hs := ret_sreg_All c
      rw [hr] at hs
      show invS c1.register_file.sreg
      rw [show c1.register_file.sreg = c.register_file.sreg from hs]
      exact h
    | crash => trivial
  | Sei => exact invS_sregSet_high _ true h
  | Cli => exact invS_sregSet_high _ false h
  | Sbrs r b =>
    show HRes.All sregInvariant (c.sbrs r b)
    unfold Core.sbrs
    cases c.register_file.gpr r with
    | error e => exact h
    | ok v =>
      dsimp only []
      split
      · exact h
      · exact h
  | In rd a =>
    show HRes.All sregInvariant (c.inH rd a)
    unfold Core.inH
    split
    · trivial
    · cases c.memory.getU8 (SRAM_IO_OFFSET + a) with
      | error e => exact h
      | ok ioVal =>
        dsimp only []
        cases c.register_file.gpr rd with
        | error e => trivial
        | ok v => exact h
  | Out a rd =>
    show HRes.All sregInvariant (c.out a rd)
    unfold Core.out
    split
    · trivial
    · cases c.register_file.gpr rd with
      | error e => exact h
      | ok v =>
        dsimp only []
        cases c.memory.setU8 (SRAM_IO_OFFSET + a) v with
        | error e => exact h
        | ok m => exact h
  | Sbi a b =>
    exact invAll_doIoAb c a b (fun s cur bb => (s, cur ||| ((1 <<< bb) % 256)))
      (fun s cur bb => rfl) h
  | Sbis a b =>
    refine invAll_doIoAb c a b (fun s cur bb =>
      (if cur = bb then
        { s with pc := (s.pc + s.size_of_next_instruction) % 4294967296 }
       else s, cur)) ?_ h
    intro s cur bb
    dsimp only []
    split
    · rfl
    · rfl
  | Cbi a b =>
    exact invAll_doIoAb c a b (fun s cur bb => (s, cur &&& (255 ^^^ ((1 <<< bb) % 256))))
      (fun s cur bb => rfl) h
  | Jmp k => exact h
  | Call k =>
    show HRes.All sregInvariant (c.call k)
    unfold Core.call
    cases c.register_file.gprPairVal SP_LO_NUM with
    | error e => trivial
    | ok sp =>
      dsimp only []
      cases (c.memory.setU16 (wsub16 sp 1) (c.pc % 65536)).2 with
      | some e => exact h
      | none => exact h
  | Rjmp k => exact h
  | Rcall k => exact h
  | Brbs s k => trivial
  | Brbc s k => trivial
  | Breq k => exact invAll_doSregBranch c k (fun s => sregGet s ZERO_FLAG) h
  | Brne k => exact invAll_doSregBranch c k (fun s => !sregGet s ZERO_FLAG) h
  | Brcs k => exact invAll_doSregBranch c k (fun s => sregGet s CARRY_FLAG) h
  | Brcc k => exact invAll_doSregBranch c k (fun s => !sregGet s CARRY_FLAG) h
  | Brsh k => exact invAll_doSregBranch c k (fun s => !sregGet s CARRY_FLAG) h
  | Brlo k => exact invAll_doSregBranch c k (fun s => sregGet s CARRY_FLAG) h
  | Brmi k => exact invAll_doSregBranch c k (fun s => sregGet s NEGATIVE_FLAG) h
  | Brpl k => exact invAll_doSregBranch c k (fun s => !sregGet s NEGATIVE_FLAG) h
  | Brge k => exact invAll_doSregBranch c k (fun s => !sregGet s S_FLAG) h
  | Brlt k => exact invAll_doSregBranch c k (fun s => sregGet s S_FLAG) h
  | Brhs k => exact invAll_doSregBranch c k (fun s => sregGet s HALF_CARRY_FLAG) h
  | Brhc k => exact invAll_doSregBranch c k (fun s => !sregGet s HALF_CARRY_FLAG) h
  | Brts k => exact invAll_doSregBranch c k (fun s => sregGet s TRANSFER_FLAG) h
  | Brtc k => exact invAll_doSregBranch c k (fun s => !sregGet s TRANSFER_FLAG) h
  | Brvs k => exact invAll_doSregBranch c k (fun s => sregGet s OVERFLOW_FLAG) h
  | Brvc k => exact invAll_doSregBranch c k (fun s => !sregGet s OVERFLOW_FLAG) h
  | Brie k => exact invAll_doSregBranch c k (fun s => sregGet s INTERRUPT_FLAG) h
  | Brid k => exact invAll_doSregBranch c k (fun s => !sregGet s INTERRUPT_FLAG) h
  | Sts rd k =>
    show HRes.All sregInvariant (c.sts rd k)
    unfold Core.sts
    cases c.register_file.gpr rd with
    | error e => trivial
    | ok v =>
      dsimp only []
      cases c.memory.setU8 k v with
      | error e => exact h
      | ok m => exact h
  | Lds rd k =>
    show HRes.All sregInvariant (c.lds rd k)
    unfold Core.lds
    cases c.memory.getU8 k with
    | error e => exact h
    | ok v =>
      dsimp only []
      cases c.register_file.gpr rd with
      | error e => trivial
      | ok w => exact h
  | Lpm rd z postinc =>
    show HRes.All sregInvariant (c.lpm rd z postinc)
    unfold Core.lpm
    split
    · trivial
    · cases c.register_file.gprPairVal z with
      | error e => exact h
      | ok zv =>
        dsimp only []
        cases c.program_space.getU8 zv with
        | error e => exact h
        | ok v =>
          dsimp only []
          cases c.register_file.gpr rd with
          | error e => exact h
          | ok w =>
            dsimp only []
            split
            · exact h
            · exact h
  | St ptr reg variant =>
    show HRes.All sregInvariant (c.st ptr reg variant)
    unfold Core.st
    cases c.register_file.gprPairVal ptr with
    | error e => exact h
    | ok addr =>
      dsimp only []
      cases c.register_file.gpr reg with
      | error e => exact h
      | ok v =>
        dsimp only []
        cases c.memory.setU8 addr v with
        | error e => exact h
        | ok m =>
          dsimp only []
          cases hv : handleLdStVariant { c with memory := m } ptr variant with
          | none => trivial
          | some c1 =>
            show invS c1.register_file.sreg
            rw [handleLdStVariant_sreg _ _ _ _ hv]
            exact h
  | Std ptr imm reg =>
    show HRes.All sregInvariant (c.stdH ptr imm reg)
    unfold Core.stdH
    cases c.register_file.gprPairVal ptr with
    | error e => exact h
    | ok pv =>
      dsimp only []
      cases c.register_file.gpr reg with
      | error e => exact h
      | ok v =>
        dsimp only []
        cases c.memory.setU8 ((pv + imm) % 65536) v with
        | error e => exact h
        | ok m => exact h
  | Ld reg ptr variant =>
    show HRes.All sregInvariant (c.ld reg ptr variant)
    unfold Core.ld
    cases c.register_file.gprPairVal ptr with
    | error e => exact h
    | ok addr =>
      dsimp only []
      cases c.memory.getU8 addr with
      | error e => exact h
      | ok v =>
        dsimp only []
        cases c.register_file.gpr reg with
        | error e => exact h
        | ok w =>
          dsimp only []
          cases hv : handleLdStVariant
              { c with register_file := c.register_file.setReg reg v } ptr variant with
          | none => trivial
          | some c1 =>
            show invS c1.register_file.sreg
            rw [handleLdStVariant_sreg _ _ _ _ hv]
            exact h
  | Ldd reg ptr imm =>
    show HRes.All sregInvariant (c.ldd reg ptr imm)
    unfold Core.ldd
    cases c.register_file.gprPairVal ptr with
    | error e => exact h
    | ok pv =>
      dsimp only []
      cases c.memory.getU8 ((pv + imm) % 65536) with
      | error e => exact h
      | ok v =>
        dsimp only []
        cases c.register_file.gpr reg with
        | error e => exact h
        | ok w => exact h


theorem execute_preserves_invS (c : Core) (i : Instruction) (h : sregInvariant c) :
    HRes.All sregInvariant (c.execute i) :=
  dispatch_preserves_invS { c with pc := (c.pc + i.size) % 4294967296 } i h

theorem updateClock_sreg_All (c : Core) :
    HRes.All (fun c' => c'.register_file.sreg = c.register_file.sreg) c.updateClock := by
  unfold Core.updateClock
  cases clockTick c.memory with
  | mk m o =>
    cases o with
    | none => rfl
    | some e => rfl

theorem tick_preserves_invS (c : Core) (h : sregInvariant c) :
    TickRes.All sregInvariant c.tick := by
  unfold Core.tick
  cases hf : c.fetch with
  | crash => trivial
  | err e => exact h
  | ok inst c1 =>
    dsimp only []
    have hframe := fetch_ok_frame c inst c1 hf
    have h1 : sregInvariant c1 := by
      unfold sregInvariant
      rw [hframe.1]
      exact h
    have hu := updateClock_sreg_All c1
    cases hc : c1.updateClock with
    | crash => trivial
    | err e c2 =>
      rw [hc] at hu
      show invS c2.register_file.sreg
      rw [show c2.register_file.sreg = c1.register_file.sreg from hu]
      exact h1
    | ok c2 =>
      rw [hc] at hu
      dsimp only []
      have h2 : sregInvariant c2 := by
        unfold sregInvariant
        rw [show c2.register_file.sreg = c1.register_file.sreg from hu]
        exact h1
      have he := execute_preserves_invS c2 inst h2
      cases hx : c2.execute inst with
      | crash => trivial
      | err e c3 =>
        rw [hx] at he
        simp only [hx]
        exact he
      | ok c3 =>
        rw [hx] at he
        simp only [hx]
        exact he

def coreC8 : Core :=
  { register_file := { registers := List.replicate 34 0, sreg := 16 },
    program_space := [0, 0, 0, 0], memory := List.replicate 0x109 0, pc := 0,
    size_of_next_instruction := 0 }

/-- C8, counterexample.  The claim says Sign equals the complement of
Negative in *every* reachable state, including the initial one; but
`SReg::new` returns an all-zero status register, in which Sign and
Negative are both clear, so Sign is not the complement of Negative at the
start. -/
theorem C8_counterexample :
    ¬ (sregGet sregNew S_FLAG = !sregGet sregNew NEGATIVE_FLAG) := by
  decide

/-- C8, amended.  Every arithmetic status update (`update_sreg_arithmetic`)
establishes Sign = ¬Negative, and every `tick` from a state satisfying
Sign = ¬Negative preserves it in every state it can produce, success or
error; the invariant only fails to hold in the initial all-zero status
register, where Sign and Negative are both clear. -/
theorem C8_sign_complement_invariant :
    (∀ val v, invS (updSregArith val v)) ∧
      (∀ c : Core, sregInvariant c → TickRes.All sregInvariant c.tick) :=
  ⟨fun val v => invS_updSregArith val v, fun c h => tick_preserves_invS c h⟩

/-- C8, witness: the tick preservation applied at a concrete core whose
status register has Sign set and Negative clear, and the establishment
part applied at a concrete update. -/
theorem C8_sign_complement_invariant_witness :
    invS (updSregArith 0x1FF 0xFF) ∧ TickRes.All sregInvariant coreC8.tick :=
  ⟨C8_sign_complement_invariant.1 0x1FF 0xFF,
    C8_sign_complement_invariant.2 coreC8 (by unfold sregInvariant invS; decide)⟩

end Avr
